import Mathlib

/-
  Verification development for the Space Invaders game of this repository
  (src/main.c, src/lcd.c, src/gamedefs.h).

  The game state of main.c is embedded shallowly:
  * uint8_t fields become naturals, with explicit `% 256` wherever the C
    arithmetic can wrap;
  * the three float fields (enemyX, enemyY, enemyDX) become exact rationals
    (written with `mkRat` so that they reduce in the kernel); the C cast
    `(int)e` becomes `ratTrunc` (truncation toward zero, as C does);
  * the fixed arrays become lists of naturals;
  * `gameLoop` (one tick, including the `gameOver(); return;` early exits,
    where `gameOver` calls `gameReset`) becomes a total step function on
    states; the `rand()` draw and the three button reads are an explicit
    `Input` value per tick;
  * the 1024-byte LCD framebuffer of lcd.c becomes a list of byte values
    and `lcdDrawPixel` a function on it.
-/

set_option maxRecDepth 100000
set_option maxHeartbeats 1000000

namespace SpaceInvaders

/-! Constants of gamedefs.h. -/

def SCREEN_WIDTH : ℕ := 128
def SCREEN_HEIGHT : ℕ := 64
def ALIEN_WIDTH : ℕ := 8
def ALIEN_HEIGHT : ℕ := 8
def SHIP_WIDTH : ℕ := 8
def SHIP_HEIGHT : ℕ := 8
def SHIP_X_MOVE : ℕ := 2
def ENEMY_WAIT_BETWEEN_FIRE : ℕ := 5
def PLAYER_WAIT_BETWEEN_FIRE : ℕ := 10
def ROW1_ENEMY_COUNT : ℕ := 5
def ROW2_ENEMY_COUNT : ℕ := 4
def ENEMY_BULLET_SPEED : ℕ := 1
def SHIP_BULL_SPEED : ℕ := 1
def ALIEN_BETWEEN_OFFSET : ℕ := 18
def ALIEN_INCREASE_SPEED_BY : ℚ := mkRat 6 5
def ALIEN_INCREASE_Y_BY : ℕ := 4
def MAX_PLAYER_BULLETS : ℕ := 20
def MAX_ENEMY_BULLETS : ℕ := 20
def ENEMY_COUNT : ℕ := ROW1_ENEMY_COUNT + ROW2_ENEMY_COUNT
def ALIVE : ℕ := 7
def START_DYING : ℕ := ALIVE - 1

/-- Truncation of a rational toward zero: the semantics of the C cast
`(int)` applied to a float holding an exact rational value. -/
def ratTrunc (q : ℚ) : ℤ := Int.tdiv q.num (q.den : ℤ)

/-- Reduction of a C `int` value modulo 256, the semantics of storing an
`int` expression into a `uint8_t` variable. -/
def toByte (v : ℤ) : ℕ := (v % 256).toNat

/-- Per-tick inputs of gameLoop: the three buttons read by
`isButtonDown` and the value returned by `rand()`. -/
structure Input where
  left : Bool
  right : Bool
  fire : Bool
  rand : ℕ
deriving DecidableEq

/-- The mutable game data of main.c (lines 26-40). -/
structure GameState where
  lives : ℕ
  shipAlive : ℕ
  shipX : ℕ
  shipY : ℕ
  enemyX : ℚ
  enemyY : ℚ
  enemyDX : ℚ
  enemyAlive : List ℕ
  enemyRemaining : ℕ
  currBulletId : ℕ
  bulletWait : ℕ
  bulletX : List ℕ
  bulletY : List ℕ
  currEnemyBulletId : ℕ
  enemyBulletWait : ℕ
  enemyBulletX : List ℕ
  enemyBulletY : List ℕ
deriving DecidableEq

/-- gameReset (main.c lines 71-99). -/
def gameReset : GameState where
  lives := 3
  shipAlive := ALIVE
  shipX := 60
  shipY := 50
  enemyX := 10
  enemyY := 0
  enemyDX := mkRat 1 2
  enemyAlive := List.replicate ENEMY_COUNT ALIVE
  enemyRemaining := ENEMY_COUNT
  currBulletId := 0
  bulletWait := 0
  bulletX := List.replicate MAX_PLAYER_BULLETS 0
  bulletY := List.replicate MAX_PLAYER_BULLETS 0
  currEnemyBulletId := 0
  enemyBulletWait := ENEMY_WAIT_BETWEEN_FIRE
  enemyBulletX := List.replicate MAX_ENEMY_BULLETS 0
  enemyBulletY := List.replicate MAX_ENEMY_BULLETS 0

/-- Left movement (main.c lines 151-154): `shipX -= SHIP_X_MOVE` on a
uint8_t, guarded by `shipX > 0`. -/
def shipMoveL (inp : Input) (s : GameState) : GameState :=
  if inp.left = true then
    if 0 < s.shipX then { s with shipX := (s.shipX + 256 - SHIP_X_MOVE) % 256 } else s
  else s

/-- Right movement (main.c lines 156-159). -/
def shipMoveR (inp : Input) (s : GameState) : GameState :=
  if inp.right = true then
    if s.shipX < SCREEN_WIDTH - SHIP_WIDTH then { s with shipX := (s.shipX + SHIP_X_MOVE) % 256 } else s
  else s

def shipMove (inp : Input) (s : GameState) : GameState :=
  shipMoveR inp (shipMoveL inp s)

/-- The write performed when the player fires (main.c lines 177-199):
store the bullet at the current ring-buffer slot, advance the cursor
modulo the capacity, reset the fire cooldown. -/
def fireBullet (s : GameState) : GameState :=
  { s with
    bulletX := s.bulletX.set s.currBulletId ((s.shipX + SHIP_WIDTH / 2) % 256)
    bulletY := s.bulletY.set s.currBulletId s.shipY
    currBulletId := (s.currBulletId + 1) % MAX_PLAYER_BULLETS
    bulletWait := PLAYER_WAIT_BETWEEN_FIRE }

/-- Player fire cooldown and trigger (main.c lines 163-200). -/
def playerFire (inp : Input) (s : GameState) : GameState :=
  let s := if 0 < s.bulletWait then { s with bulletWait := s.bulletWait - 1 } else s
  if inp.fire = true ∧ s.bulletWait = 0 then fireBullet s else s

/-- Ship flash decrement, life loss and game over (main.c lines 220-269).
The `Except.error` result is the state after the `gameOver(); return;`
path (gameOver calls gameReset). -/
def shipLife (s : GameState) : Except GameState GameState :=
  let s := if 0 < s.shipAlive ∧ s.shipAlive < ALIVE then { s with shipAlive := s.shipAlive - 1 } else s
  if s.shipAlive = 0 then
    if 1 < s.lives then
      Except.ok { s with
        lives := s.lives - 1
        shipAlive := ALIVE
        bulletWait := 0
        enemyBulletWait := ENEMY_WAIT_BETWEEN_FIRE }
    else Except.error gameReset
  else Except.ok s

/-- Win check (main.c lines 278-282): `enemyRemaining <= 0` on a uint8_t
is `= 0`. -/
def checkWin (s : GameState) : Except GameState GameState :=
  if s.enemyRemaining = 0 then Except.error gameReset else Except.ok s

/-- Enemy fire cooldown (main.c lines 319-325): returns the value of the
local `int shipToFire` (-1 when no ordinal is drawn this tick) together
with the updated state. -/
def enemyCooldown (inp : Input) (s : GameState) : ℤ × GameState :=
  if 0 < s.enemyBulletWait then
    if s.enemyBulletWait - 1 = 0 ∧ 0 < s.enemyRemaining then
      (((inp.rand % s.enemyRemaining : ℕ) : ℤ),
        { s with enemyBulletWait := ENEMY_WAIT_BETWEEN_FIRE })
    else (-1, { s with enemyBulletWait := s.enemyBulletWait - 1 })
  else (-1, s)

/-- One slot of the two alien draw loops: the alien's array index and the
offsets added to enemyX and enemyY to obtain its screen position. -/
structure SlotSpec where
  idx : ℕ
  xOff : ℚ
  yOff : ℚ
deriving DecidableEq

/-- The fixed draw order of the two loops (main.c lines 344 and 516-523):
row 1 slots 0-4 at `enemyX + 18*i, enemyY`, then row 2 slots 5-8 at
`enemyX + 9 + 18*i, enemyY + ALIEN_HEIGHT`. -/
def rowSpecs : List SlotSpec :=
  ((List.range ROW1_ENEMY_COUNT).map
    (fun i => ⟨i, (ALIEN_BETWEEN_OFFSET : ℚ) * (i : ℚ), 0⟩)) ++
  ((List.range ROW2_ENEMY_COUNT).map
    (fun i => ⟨ROW1_ENEMY_COUNT + i, 9 + (ALIEN_BETWEEN_OFFSET : ℚ) * (i : ℚ), (ALIEN_HEIGHT : ℚ)⟩))

/-- Bounding-box test of main.c lines 470-471 (and 547-548): the bullet
point lies inside the alien's box, all edges inclusive. -/
def inBox (x y : ℤ) (bx bky : ℕ) : Prop :=
  x ≤ (bx : ℤ) ∧ (bx : ℤ) ≤ x + (ALIEN_WIDTH : ℤ) ∧
  y ≤ (bky : ℤ) ∧ (bky : ℤ) ≤ y + (ALIEN_HEIGHT : ℤ)

instance (x y : ℤ) (bx bky : ℕ) : Decidable (inBox x y bx bky) := by
  unfold inBox
  infer_instance

/-- One iteration of the player-bullet collision scan (main.c lines
459-491): on a hit the alien enters the dying state and the bullet slot
is zeroed. -/
def collideStep (idx : ℕ) (x y : ℤ) (s : GameState) (j : ℕ) : GameState :=
  if inBox x y (s.bulletX.getD j 0) (s.bulletY.getD j 0) then
    { s with
      enemyAlive := s.enemyAlive.set idx START_DYING
      bulletX := s.bulletX.set j 0
      bulletY := s.bulletY.set j 0 }
  else s

/-- The full collision scan of one alien against the player-bullet pool. -/
def collideBullets (idx : ℕ) (x y : ℤ) (s : GameState) : GameState :=
  (List.range MAX_PLAYER_BULLETS).foldl (collideStep idx x y) s

/-- Alien flash decrement and removal bookkeeping (main.c lines 501-506
and 555-560); `enemyRemaining--` on a uint8_t wraps modulo 256. -/
def alienLife (idx : ℕ) (s : GameState) : GameState :=
  let v := s.enemyAlive.getD idx 0
  if 0 < v ∧ v < ALIVE then
    let s := { s with enemyAlive := s.enemyAlive.set idx (v - 1) }
    if v - 1 = 0 then { s with enemyRemaining := (s.enemyRemaining + 255) % 256 } else s
  else s

/-- Enemy bullet spawn at the firing alien (main.c lines 388-398 and
527-533). -/
def fireFromAlien (x y : ℤ) (s : GameState) : GameState :=
  { s with
    enemyBulletY := s.enemyBulletY.set s.currEnemyBulletId (toByte (y + (ALIEN_HEIGHT : ℤ)))
    enemyBulletX := s.enemyBulletX.set s.currEnemyBulletId (toByte (x + (ALIEN_WIDTH : ℤ) / 2))
    currEnemyBulletId := (s.currEnemyBulletId + 1) % MAX_ENEMY_BULLETS
    enemyBulletWait := ENEMY_WAIT_BETWEEN_FIRE }

/-- The body of one alien loop iteration (main.c lines 344-507 resp.
516-561), threading the `shipToFire` counter: if the slot's vitality is
odd the alien is drawn, the fire counter is tested and post-decremented,
the edge bounce and the ground-touch game over are checked, and the
player-bullet collision scan runs; in every case the flash/removal
bookkeeping follows. -/
def alienStep (sp : SlotSpec) (p : ℤ × GameState) : Except GameState (ℤ × GameState) :=
  let c := p.1
  let s := p.2
  if (s.enemyAlive.getD sp.idx 0) % 2 = 1 then
    let x : ℤ := ratTrunc (s.enemyX + sp.xOff)
    let y : ℤ := ratTrunc (s.enemyY + sp.yOff)
    let s := if c = 0 then fireFromAlien x y s else s
    let c := c - 1
    let s :=
      if x ≤ 0 ∨ (SCREEN_WIDTH : ℤ) ≤ x + (ALIEN_WIDTH : ℤ) then
        { s with
          enemyDX := s.enemyDX * (-ALIEN_INCREASE_SPEED_BY)
          enemyY := s.enemyY + (ALIEN_INCREASE_Y_BY : ℚ) }
      else s
    if (SCREEN_HEIGHT : ℤ) ≤ y + (ALIEN_HEIGHT : ℤ) then Except.error gameReset
    else Except.ok (c, alienLife sp.idx (collideBullets sp.idx x y s))
  else Except.ok (c, alienLife sp.idx s)

/-- The alien sweep: both rows in draw order, stopping at a mid-sweep
game over. -/
def sweepAliens : List SlotSpec → ℤ × GameState → Except GameState (ℤ × GameState)
  | [], p => Except.ok p
  | sp :: rest, p =>
    match alienStep sp p with
    | Except.error t => Except.error t
    | Except.ok q => sweepAliens rest q

/-- One iteration of the player-bullet advancement loop (main.c lines
583-619): an active slot moves up by SHIP_BULL_SPEED (uint8_t
arithmetic) and is deactivated when the new y is 0 or above the screen
height. -/
def advPlayerSlot (s : GameState) (j : ℕ) : GameState :=
  if s.bulletX.getD j 0 ≠ 0 ∧ s.bulletY.getD j 0 ≠ 0 then
    let y := (s.bulletY.getD j 0 + 256 - SHIP_BULL_SPEED) % 256
    if y = 0 ∨ SCREEN_HEIGHT < y then
      { s with bulletX := s.bulletX.set j 0, bulletY := s.bulletY.set j 0 }
    else { s with bulletY := s.bulletY.set j y }
  else s

def advancePlayerBullets (s : GameState) : GameState :=
  (List.range MAX_PLAYER_BULLETS).foldl advPlayerSlot s

/-- One iteration of the enemy-bullet loop (main.c lines 634-657): an
active slot moves down by ENEMY_BULLET_SPEED, is tested against the
ship's box (hitting a fully alive ship starts its dying animation; the
bullet is destroyed in any case), and is removed once `y >= 64`. -/
def advEnemySlot (s : GameState) (j : ℕ) : GameState :=
  if s.enemyBulletX.getD j 0 ≠ 0 ∧ s.enemyBulletY.getD j 0 ≠ 0 then
    let s := { s with enemyBulletY := s.enemyBulletY.set j ((s.enemyBulletY.getD j 0 + ENEMY_BULLET_SPEED) % 256) }
    let s :=
      if s.shipX ≤ s.enemyBulletX.getD j 0 ∧ s.enemyBulletX.getD j 0 ≤ s.shipX + SHIP_WIDTH ∧
         s.shipY ≤ s.enemyBulletY.getD j 0 ∧ s.enemyBulletY.getD j 0 ≤ s.shipY + SHIP_HEIGHT then
        let s := if s.shipAlive = ALIVE then { s with shipAlive := START_DYING } else s
        { s with enemyBulletX := s.enemyBulletX.set j 0, enemyBulletY := s.enemyBulletY.set j 0 }
      else s
    if SCREEN_HEIGHT ≤ s.enemyBulletY.getD j 0 then
      { s with enemyBulletX := s.enemyBulletX.set j 0, enemyBulletY := s.enemyBulletY.set j 0 }
    else s
  else s

def advanceEnemyBullets (s : GameState) : GameState :=
  (List.range MAX_ENEMY_BULLETS).foldl advEnemySlot s

/-- gameLoop (main.c lines 142-658) as a function from the pre-tick state
to either the post-tick state or, through `Except.error`, the state left
behind by a `gameOver(); return;` exit. -/
def gameLoopAux (inp : Input) (s0 : GameState) : Except GameState GameState :=
  match shipLife (playerFire inp (shipMove inp s0)) with
  | Except.error t => Except.error t
  | Except.ok s1 =>
    match checkWin s1 with
    | Except.error t => Except.error t
    | Except.ok s2 =>
      match sweepAliens rowSpecs (enemyCooldown inp s2) with
      | Except.error t => Except.error t
      | Except.ok q =>
        let s3 := { q.2 with enemyX := q.2.enemyX + q.2.enemyDX }
        Except.ok (advanceEnemyBullets (advancePlayerBullets s3))

/-- One tick of the game: gameLoop, with the gameOver exits resolved to
the state they leave behind. -/
def gameLoop (inp : Input) (s : GameState) : GameState :=
  match gameLoopAux inp s with
  | Except.ok t => t
  | Except.error t => t

/-- States reachable from a fresh gameReset by ticks with arbitrary
inputs. -/
inductive Reachable : GameState → Prop
  | reset : Reachable gameReset
  | step (inp : Input) {s : GameState} : Reachable s → Reachable (gameLoop inp s)

/-- Number of alien slots whose vitality is strictly positive. -/
def countAlive (l : List ℕ) : ℕ := l.countP (fun v => decide (0 < v))

/-! The framebuffer model of lcd.c. -/

/-- lcdDrawPixel (lcd.c lines 358-411) acting on the 1024-byte
framebuffer: out-of-range coordinates are dropped, otherwise the y
coordinate is flipped and one bit is ORed into the page/column byte. -/
def lcdDrawPixel (x y : ℕ) (fb : List ℕ) : List ℕ :=
  if 127 < x ∨ 63 < y then fb
  else
    let y2 := 63 - y
    let idx := (y2 / 8) * 128 + x
    fb.set idx ((fb.getD idx 0) ||| (1 <<< (y2 % 8)))

/-! Derived notions and concrete states used by the claims. -/

/-- A tick with no button pressed and rand() returning 0. -/
def noInput : Input := ⟨false, false, false, 0⟩

/-- The aliens of `specs` that are drawn this tick (odd vitality), in
draw order. -/
def drawnList (alive : List ℕ) (specs : List SlotSpec) : List SlotSpec :=
  specs.filter (fun sp => (alive.getD sp.idx 0) % 2 == 1)

/-- The inductive invariant of the step function: the alien array has its
nine slots, enemyRemaining counts the slots of positive vitality, and the
ship x position is even and within the playfield. -/
def GoodState (s : GameState) : Prop :=
  s.enemyAlive.length = 9 ∧
  s.enemyRemaining = countAlive s.enemyAlive ∧
  s.shipX % 2 = 0 ∧
  s.shipX ≤ SCREEN_WIDTH - SHIP_WIDTH

/-- A reset state with two player bullets inside the box of alien 0
(which sits at x = 10, y = 0). -/
def hitTwoState : GameState :=
  { gameReset with
    bulletX := [12, 13, 0, 0, 0, 0, 0, 0, 0, 0, 0, 0, 0, 0, 0, 0, 0, 0, 0, 0]
    bulletY := [3, 3, 0, 0, 0, 0, 0, 0, 0, 0, 0, 0, 0, 0, 0, 0, 0, 0, 0, 0] }

/-- A reset state whose alien 0 is mid-dying (vitality 3, odd, so drawn)
with one player bullet inside its box. -/
def rehitState : GameState :=
  { gameReset with
    enemyAlive := [3, 7, 7, 7, 7, 7, 7, 7, 7]
    bulletX := [12, 0, 0, 0, 0, 0, 0, 0, 0, 0, 0, 0, 0, 0, 0, 0, 0, 0, 0, 0]
    bulletY := [3, 0, 0, 0, 0, 0, 0, 0, 0, 0, 0, 0, 0, 0, 0, 0, 0, 0, 0, 0] }

/-- A state in which two drawn aliens (row 1 slot 4 at x = 129 and row 2
slot 3 at x = 120) touch the right screen edge in the same sweep. -/
def doubleTouchState : GameState := { gameReset with enemyX := 57 }

/-- A state in which exactly one drawn alien (row 1 slot 4 at x = 120)
touches the right screen edge, with arbitrary formation velocity. -/
def oneTouchState (d : ℚ) : GameState := { gameReset with enemyX := 48, enemyDX := d }

/-- A state whose alien 0 is alive but not drawn (vitality 4, even), with
the enemy cooldown about to reach zero. -/
def skipState : GameState :=
  { gameReset with enemyAlive := [4, 7, 7, 7, 7, 7, 7, 7, 7], enemyBulletWait := 1 }

/-- A reset-geometry state with an arbitrary alien vitality array, the
matching remaining count, and the enemy cooldown about to reach zero. -/
def selectState (alive : List ℕ) : GameState :=
  { gameReset with
    enemyAlive := alive
    enemyRemaining := countAlive alive
    enemyBulletWait := 1 }

/-- A reset state with one enemy bullet one pixel above the bottom of the
screen and one slot holding (5, 0). -/
def staleBulletState : GameState :=
  { gameReset with
    enemyBulletX := [10, 5, 0, 0, 0, 0, 0, 0, 0, 0, 0, 0, 0, 0, 0, 0, 0, 0, 0, 0]
    enemyBulletY := [63, 0, 0, 0, 0, 0, 0, 0, 0, 0, 0, 0, 0, 0, 0, 0, 0, 0, 0, 0] }

/-! List helper lemmas. -/

/-- A shot request at an arbitrary ship position: move the ship there and
run the player fire write (used to exercise the ring buffer). -/
def fireAt (t : GameState) (p : ℕ × ℕ) : GameState :=
  fireBullet { t with shipX := p.1, shipY := p.2 }

/-- A reset state whose alien 0 and ship are both mid-dying (vitality 3). -/
def c3State : GameState :=
  { gameReset with enemyAlive := [3, 7, 7, 7, 7, 7, 7, 7, 7], shipAlive := 3 }

/-- A vitality array whose alien 0 is alive but even (not drawn). -/
def c5WitnessAlive : List ℕ := [4, 7, 7, 7, 7, 7, 7, 7, 7]


theorem getD_set (l : List ℕ) (i j v : ℕ) :
    (l.set i v).getD j 0 = if i = j ∧ j < l.length then v else l.getD j 0 := by
  induction l generalizing i j with
  | nil => simp
  | cons a t ih =>
    cases i with
    | zero =>
      cases j with
      | zero => simp
      | succ j => simp
    | succ i =>
      cases j with
      | zero => simp
      | succ j =>
        simp only [List.set_cons_succ, List.getD_cons_succ, List.length_cons, ih i j]
        by_cases hij : i = j ∧ j < t.length
        · rw [if_pos hij, if_pos (by omega)]
        · rw [if_neg hij, if_neg (by omega)]

theorem countP_set (p : ℕ → Bool) (l : List ℕ) (i v : ℕ) (h : i < l.length) :
    (l.set i v).countP p + (if p (l.getD i 0) then 1 else 0)
      = l.countP p + (if p v then 1 else 0) := by
  induction l generalizing i with
  | nil => simp at h
  | cons a t ih =>
    cases i with
    | zero =>
      simp only [List.set_cons_zero, List.countP_cons, List.getD_cons_zero]
      omega
    | succ i =>
      have h' : i < t.length := by simpa using h
      simp only [List.set_cons_succ, List.countP_cons, List.getD_cons_succ]
      have := ih i h'
      omega

theorem countAlive_set (l : List ℕ) (i v : ℕ) (h : i < l.length) :
    countAlive (l.set i v) + (if 0 < l.getD i 0 then 1 else 0)
      = countAlive l + (if 0 < v then 1 else 0) := by
  have := countP_set (fun w => decide (0 < w)) l i v h
  unfold countAlive
  simpa using this

theorem countAlive_le (l : List ℕ) : countAlive l ≤ l.length :=
  List.countP_le_length _

/-! Frame lemmas: each component of the tick only writes the fields it
writes in main.c. -/

theorem shipMoveL_frame (inp : Input) (s : GameState) :
    ∃ x, shipMoveL inp s = { s with shipX := x } := by
  unfold shipMoveL
  split_ifs <;> exact ⟨_, rfl⟩

theorem shipMoveR_frame (inp : Input) (s : GameState) :
    ∃ x, shipMoveR inp s = { s with shipX := x } := by
  unfold shipMoveR
  split_ifs <;> exact ⟨_, rfl⟩

theorem shipMove_frame (inp : Input) (s : GameState) :
    ∃ x, shipMove inp s = { s with shipX := x } := by
  obtain ⟨a, ha⟩ := shipMoveL_frame inp s
  obtain ⟨b, hb⟩ := shipMoveR_frame inp { s with shipX := a }
  exact ⟨b, by unfold shipMove; rw [ha, hb]⟩

theorem playerFire_frame (inp : Input) (s : GameState) :
    ∃ bX bY c w, playerFire inp s =
      { s with bulletX := bX, bulletY := bY, currBulletId := c, bulletWait := w } := by
  unfold playerFire fireBullet
  dsimp only
  split_ifs <;> exact ⟨_, _, _, _, rfl⟩

theorem shipLife_frame (s : GameState) :
    shipLife s = Except.error gameReset ∨
      ∃ l a w ew, shipLife s =
        Except.ok { s with lives := l, shipAlive := a, bulletWait := w, enemyBulletWait := ew } := by
  unfold shipLife
  dsimp only
  split_ifs
  · exact Or.inr ⟨_, _, _, _, rfl⟩
  · exact Or.inl rfl
  · exact Or.inr ⟨_, _, _, _, rfl⟩
  · exact Or.inr ⟨_, _, _, _, rfl⟩
  · exact Or.inl rfl
  · exact Or.inr ⟨_, _, _, _, rfl⟩

theorem checkWin_frame (s : GameState) :
    checkWin s = Except.error gameReset ∨ checkWin s = Except.ok s := by
  unfold checkWin
  split_ifs
  · exact Or.inl rfl
  · exact Or.inr rfl

theorem enemyCooldown_frame (inp : Input) (s : GameState) :
    ∃ w, (enemyCooldown inp s).2 = { s with enemyBulletWait := w } := by
  unfold enemyCooldown
  split_ifs <;> exact ⟨_, rfl⟩

theorem collideStep_frame (idx : ℕ) (x y : ℤ) (s : GameState) (j : ℕ) :
    ∃ A bX bY, collideStep idx x y s j =
      { s with enemyAlive := A, bulletX := bX, bulletY := bY } := by
  unfold collideStep
  split_ifs <;> exact ⟨_, _, _, rfl⟩

theorem foldCollide_frame (idx : ℕ) (x y : ℤ) (js : List ℕ) (s : GameState) :
    ∃ A bX bY, js.foldl (collideStep idx x y) s =
      { s with enemyAlive := A, bulletX := bX, bulletY := bY } := by
  induction js generalizing s with
  | nil => exact ⟨_, _, _, rfl⟩
  | cons j t ih =>
    obtain ⟨A, B, C, h⟩ := collideStep_frame idx x y s j
    obtain ⟨A', B', C', h'⟩ := ih { s with enemyAlive := A, bulletX := B, bulletY := C }
    exact ⟨A', B', C', by simp only [List.foldl_cons]; rw [h]; exact h'⟩

theorem collideBullets_frame (idx : ℕ) (x y : ℤ) (s : GameState) :
    ∃ A bX bY, collideBullets idx x y s =
      { s with enemyAlive := A, bulletX := bX, bulletY := bY } :=
  foldCollide_frame idx x y _ s

theorem alienLife_frame (idx : ℕ) (s : GameState) :
    ∃ A r, alienLife idx s = { s with enemyAlive := A, enemyRemaining := r } := by
  unfold alienLife
  dsimp only
  split_ifs <;> exact ⟨_, _, rfl⟩

/-- The fields of the state that the alien sweep never writes. -/
def KeepA (s t : GameState) : Prop :=
  t.lives = s.lives ∧ t.shipAlive = s.shipAlive ∧ t.shipX = s.shipX ∧
  t.shipY = s.shipY ∧ t.enemyX = s.enemyX ∧ t.currBulletId = s.currBulletId ∧
  t.bulletWait = s.bulletWait

theorem keepA_refl (s : GameState) : KeepA s s :=
  ⟨rfl, rfl, rfl, rfl, rfl, rfl, rfl⟩

theorem keepA_trans {s t u : GameState} (h1 : KeepA s t) (h2 : KeepA t u) : KeepA s u := by
  obtain ⟨a1, a2, a3, a4, a5, a6, a7⟩ := h1
  obtain ⟨b1, b2, b3, b4, b5, b6, b7⟩ := h2
  exact ⟨b1.trans a1, b2.trans a2, b3.trans a3, b4.trans a4, b5.trans a5, b6.trans a6, b7.trans a7⟩

theorem collideStep_keepA (idx : ℕ) (x y : ℤ) (s : GameState) (j : ℕ) :
    KeepA s (collideStep idx x y s j) := by
  unfold collideStep
  split_ifs <;> exact ⟨rfl, rfl, rfl, rfl, rfl, rfl, rfl⟩

theorem foldCollide_keepA (idx : ℕ) (x y : ℤ) (js : List ℕ) (s : GameState) :
    KeepA s (js.foldl (collideStep idx x y) s) := by
  induction js generalizing s with
  | nil => exact keepA_refl s
  | cons j t ih =>
    exact keepA_trans (collideStep_keepA idx x y s j) (ih (collideStep idx x y s j))

theorem alienLife_keepA (idx : ℕ) (s : GameState) : KeepA s (alienLife idx s) := by
  unfold alienLife
  dsimp only
  split_ifs <;> exact ⟨rfl, rfl, rfl, rfl, rfl, rfl, rfl⟩

theorem resolve_keepA (idx : ℕ) (x y : ℤ) (s : GameState) :
    KeepA s (alienLife idx (collideBullets idx x y s)) :=
  keepA_trans (foldCollide_keepA idx x y _ s) (alienLife_keepA idx _)

theorem alienStep_keepA (sp : SlotSpec) (c : ℤ) (s : GameState) :
    ∀ c' s', alienStep sp (c, s) = Except.ok (c', s') → KeepA s s' := by
  intro c' s' h
  unfold alienStep at h
  dsimp only at h
  by_cases hdrawn : (s.enemyAlive.getD sp.idx 0) % 2 = 1
  · rw [if_pos hdrawn] at h
    by_cases hground : (SCREEN_HEIGHT : ℤ) ≤ ratTrunc (s.enemyY + sp.yOff) + (ALIEN_HEIGHT : ℤ)
    · rw [if_pos hground] at h
      exact absurd h (by simp)
    · rw [if_neg hground] at h
      simp only [Except.ok.injEq, Prod.mk.injEq] at h
      obtain ⟨-, h2⟩ := h
      subst h2
      refine keepA_trans ?_ (resolve_keepA _ _ _ _)
      split_ifs <;> exact ⟨rfl, rfl, rfl, rfl, rfl, rfl, rfl⟩
  · rw [if_neg hdrawn] at h
    simp only [Except.ok.injEq, Prod.mk.injEq] at h
    obtain ⟨-, h2⟩ := h
    subst h2
    exact alienLife_keepA _ _

theorem alienStep_error (sp : SlotSpec) (c : ℤ) (s : GameState) :
    ∀ t, alienStep sp (c, s) = Except.error t → t = gameReset := by
  intro t h
  unfold alienStep at h
  dsimp only at h
  by_cases hdrawn : (s.enemyAlive.getD sp.idx 0) % 2 = 1
  · rw [if_pos hdrawn] at h
    by_cases hground : (SCREEN_HEIGHT : ℤ) ≤ ratTrunc (s.enemyY + sp.yOff) + (ALIEN_HEIGHT : ℤ)
    · rw [if_pos hground] at h
      simp only [Except.error.injEq] at h
      exact h.symm
    · rw [if_neg hground] at h
      exact absurd h (by simp)
  · rw [if_neg hdrawn] at h
    exact absurd h (by simp)

theorem sweep_keepA (specs : List SlotSpec) (c : ℤ) (s : GameState) :
    ∀ c' s', sweepAliens specs (c, s) = Except.ok (c', s') → KeepA s s' := by
  induction specs generalizing c s with
  | nil =>
    intro c' s' h
    simp only [sweepAliens, Except.ok.injEq, Prod.mk.injEq] at h
    obtain ⟨-, h2⟩ := h
    subst h2
    exact keepA_refl s
  | cons sp rest ih =>
    intro c' s' h
    simp only [sweepAliens] at h
    rcases hstep : alienStep sp (c, s) with t | q
    · rw [hstep] at h
      exact absurd h (by simp)
    · rw [hstep] at h
      obtain ⟨c1, s1⟩ := q
      exact keepA_trans (alienStep_keepA sp c s c1 s1 hstep) (ih c1 s1 c' s' h)

theorem sweep_error (specs : List SlotSpec) (c : ℤ) (s : GameState) :
    ∀ t, sweepAliens specs (c, s) = Except.error t → t = gameReset := by
  induction specs generalizing c s with
  | nil =>
    intro t h
    simp [sweepAliens] at h
  | cons sp rest ih =>
    intro t h
    simp only [sweepAliens] at h
    rcases hstep : alienStep sp (c, s) with u | q
    · rw [hstep] at h
      simp only [Except.error.injEq] at h
      exact h ▸ alienStep_error sp c s u hstep
    · rw [hstep] at h
      obtain ⟨c1, s1⟩ := q
      exact ih c1 s1 t h

/-! Preservation of the inductive invariant GoodState. -/

theorem goodReset : GoodState gameReset := by
  unfold GoodState
  decide

theorem shipMoveL_shipX (inp : Input) (s : GameState) :
    shipMoveL inp s = s ∨
      (0 < s.shipX ∧ shipMoveL inp s = { s with shipX := (s.shipX + 256 - SHIP_X_MOVE) % 256 }) := by
  unfold shipMoveL
  split_ifs with h1 h2
  · exact Or.inr ⟨h2, rfl⟩
  · exact Or.inl rfl
  · exact Or.inl rfl

theorem shipMoveR_shipX (inp : Input) (s : GameState) :
    shipMoveR inp s = s ∨
      (s.shipX < SCREEN_WIDTH - SHIP_WIDTH ∧
        shipMoveR inp s = { s with shipX := (s.shipX + SHIP_X_MOVE) % 256 }) := by
  unfold shipMoveR
  split_ifs with h1 h2
  · exact Or.inr ⟨h2, rfl⟩
  · exact Or.inl rfl
  · exact Or.inl rfl

theorem shipMove_good (inp : Input) (s : GameState) (h : GoodState s) :
    GoodState (shipMove inp s) := by
  obtain ⟨h1, h2, h3, h4⟩ := h
  have h4' : s.shipX ≤ 120 := h4
  unfold shipMove
  rcases shipMoveL_shipX inp s with hL | ⟨hLpos, hL⟩ <;> rw [hL]
  · rcases shipMoveR_shipX inp s with hR | ⟨hRlt, hR⟩ <;> rw [hR]
    · exact ⟨h1, h2, h3, h4⟩
    · have hRlt' : s.shipX < 120 := hRlt
      refine ⟨h1, h2, ?_, ?_⟩
      · show (s.shipX + SHIP_X_MOVE) % 256 % 2 = 0
        show (s.shipX + 2) % 256 % 2 = 0
        omega
      · show (s.shipX + 2) % 256 ≤ 120
        omega
  · rcases shipMoveR_shipX inp { s with shipX := (s.shipX + 256 - SHIP_X_MOVE) % 256 } with hR | ⟨hRlt, hR⟩ <;>
      rw [hR]
    · refine ⟨h1, h2, ?_, ?_⟩
      · show (s.shipX + 256 - 2) % 256 % 2 = 0
        omega
      · show (s.shipX + 256 - 2) % 256 ≤ 120
        omega
    · have hRlt' : (s.shipX + 256 - 2) % 256 < 120 := hRlt
      refine ⟨h1, h2, ?_, ?_⟩
      · show ((s.shipX + 256 - 2) % 256 + 2) % 256 % 2 = 0
        omega
      · show ((s.shipX + 256 - 2) % 256 + 2) % 256 ≤ 120
        omega

theorem playerFire_good (inp : Input) (s : GameState) (h : GoodState s) :
    GoodState (playerFire inp s) := by
  obtain ⟨bX, bY, c, w, hf⟩ := playerFire_frame inp s
  rw [hf]
  exact h

theorem shipLife_good (s : GameState) (h : GoodState s) :
    ∀ t, shipLife s = Except.ok t → GoodState t := by
  intro t ht
  rcases shipLife_frame s with he | ⟨l, a, w, ew, hok⟩
  · rw [he] at ht
    exact absurd ht (by simp)
  · rw [hok] at ht
    simp only [Except.ok.injEq] at ht
    subst ht
    exact h

theorem shipLife_error (s : GameState) :
    ∀ t, shipLife s = Except.error t → t = gameReset := by
  intro t ht
  rcases shipLife_frame s with he | ⟨l, a, w, ew, hok⟩
  · rw [he] at ht
    simp only [Except.error.injEq] at ht
    exact ht.symm
  · rw [hok] at ht
    exact absurd ht (by simp)

theorem checkWin_ok (s : GameState) : ∀ t, checkWin s = Except.ok t → t = s := by
  intro t ht
  rcases checkWin_frame s with he | hok
  · rw [he] at ht
    exact absurd ht (by simp)
  · rw [hok] at ht
    simp only [Except.ok.injEq] at ht
    exact ht.symm

theorem checkWin_error (s : GameState) :
    ∀ t, checkWin s = Except.error t → t = gameReset := by
  intro t ht
  rcases checkWin_frame s with he | hok
  · rw [he] at ht
    simp only [Except.error.injEq] at ht
    exact ht.symm
  · rw [hok] at ht
    exact absurd ht (by simp)

theorem enemyCooldown_good (inp : Input) (s : GameState) (h : GoodState s) :
    GoodState (enemyCooldown inp s).2 := by
  obtain ⟨w, hw⟩ := enemyCooldown_frame inp s
  rw [hw]
  exact h

theorem alienLife_good (idx : ℕ) (s : GameState) (hidx : idx < 9) (h : GoodState s) :
    GoodState (alienLife idx s) := by
  obtain ⟨h1, h2, h3, h4⟩ := h
  have hlen : idx < s.enemyAlive.length := by rw [h1]; exact hidx
  have hle : countAlive s.enemyAlive ≤ 9 := by
    have := countAlive_le s.enemyAlive
    omega
  unfold alienLife
  dsimp only
  by_cases hc : 0 < s.enemyAlive.getD idx 0 ∧ s.enemyAlive.getD idx 0 < ALIVE
  · rw [if_pos hc]
    have hcnt := countAlive_set s.enemyAlive idx (s.enemyAlive.getD idx 0 - 1) hlen
    rw [if_pos hc.1] at hcnt
    by_cases hz : s.enemyAlive.getD idx 0 - 1 = 0
    · rw [if_pos hz]
      rw [if_neg (by omega)] at hcnt
      refine ⟨?_, ?_, h3, h4⟩
      · show (s.enemyAlive.set idx _).length = 9
        rw [List.length_set]
        exact h1
      · show (s.enemyRemaining + 255) % 256 = countAlive (s.enemyAlive.set idx _)
        omega
    · rw [if_neg hz]
      rw [if_pos (by omega)] at hcnt
      refine ⟨?_, ?_, h3, h4⟩
      · show (s.enemyAlive.set idx _).length = 9
        rw [List.length_set]
        exact h1
      · show s.enemyRemaining = countAlive (s.enemyAlive.set idx _)
        omega
  · rw [if_neg hc]
    exact ⟨h1, h2, h3, h4⟩

theorem collideStep_good (idx : ℕ) (x y : ℤ) (s : GameState) (j : ℕ)
    (h : GoodState s) (hpos : 0 < s.enemyAlive.getD idx 0) (hidx : idx < 9) :
    GoodState (collideStep idx x y s j) ∧ 0 < (collideStep idx x y s j).enemyAlive.getD idx 0 := by
  obtain ⟨h1, h2, h3, h4⟩ := h
  have hlen : idx < s.enemyAlive.length := by rw [h1]; exact hidx
  unfold collideStep
  split_ifs with hhit
  · constructor
    · refine ⟨?_, ?_, h3, h4⟩
      · show (s.enemyAlive.set idx START_DYING).length = 9
        rw [List.length_set]
        exact h1
      · show s.enemyRemaining = countAlive (s.enemyAlive.set idx START_DYING)
        have hcnt := countAlive_set s.enemyAlive idx START_DYING hlen
        rw [if_pos hpos, if_pos (by decide)] at hcnt
        omega
    · show 0 < (s.enemyAlive.set idx START_DYING).getD idx 0
      rw [getD_set, if_pos ⟨rfl, hlen⟩]
      decide
  · exact ⟨⟨h1, h2, h3, h4⟩, hpos⟩

theorem foldCollide_good (idx : ℕ) (x y : ℤ) (js : List ℕ) (s : GameState)
    (h : GoodState s) (hpos : 0 < s.enemyAlive.getD idx 0) (hidx : idx < 9) :
    GoodState (js.foldl (collideStep idx x y) s) ∧
      0 < (js.foldl (collideStep idx x y) s).enemyAlive.getD idx 0 := by
  induction js generalizing s with
  | nil => exact ⟨h, hpos⟩
  | cons j t ih =>
    obtain ⟨hg, hp⟩ := collideStep_good idx x y s j h hpos hidx
    exact ih (collideStep idx x y s j) hg hp

theorem alienStep_good (sp : SlotSpec) (c : ℤ) (s : GameState)
    (hidx : sp.idx < 9) (h : GoodState s) :
    ∀ c' s', alienStep sp (c, s) = Except.ok (c', s') → GoodState s' := by
  intro c' s' hok
  unfold alienStep at hok
  dsimp only at hok
  by_cases hdrawn : (s.enemyAlive.getD sp.idx 0) % 2 = 1
  · rw [if_pos hdrawn] at hok
    by_cases hground : (SCREEN_HEIGHT : ℤ) ≤ ratTrunc (s.enemyY + sp.yOff) + (ALIEN_HEIGHT : ℤ)
    · rw [if_pos hground] at hok
      exact absurd hok (by simp)
    · rw [if_neg hground] at hok
      simp only [Except.ok.injEq, Prod.mk.injEq] at hok
      obtain ⟨-, h2⟩ := hok
      subst h2
      have hpos : 0 < s.enemyAlive.getD sp.idx 0 := by omega
      refine alienLife_good sp.idx _ hidx ?_
      refine (foldCollide_good sp.idx _ _ _ _ ?_ ?_ hidx).1
      · split_ifs <;> exact h
      · split_ifs <;> exact hpos
  · rw [if_neg hdrawn] at hok
    simp only [Except.ok.injEq, Prod.mk.injEq] at hok
    obtain ⟨-, h2⟩ := hok
    subst h2
    exact alienLife_good sp.idx s hidx h

theorem sweep_good (specs : List SlotSpec) (hidx : ∀ sp ∈ specs, sp.idx < 9)
    (c : ℤ) (s : GameState) (h : GoodState s) :
    ∀ c' s', sweepAliens specs (c, s) = Except.ok (c', s') → GoodState s' := by
  induction specs generalizing c s with
  | nil =>
    intro c' s' hk
    simp only [sweepAliens, Except.ok.injEq, Prod.mk.injEq] at hk
    obtain ⟨-, h2⟩ := hk
    subst h2
    exact h
  | cons sp rest ih =>
    intro c' s' hk
    simp only [sweepAliens] at hk
    rcases hstep : alienStep sp (c, s) with t | q
    · rw [hstep] at hk
      exact absurd hk (by simp)
    · rw [hstep] at hk
      obtain ⟨c1, s1⟩ := q
      have hg1 := alienStep_good sp c s (hidx sp (by simp)) h c1 s1 hstep
      exact ih (fun x hx => hidx x (by simp [hx])) c1 s1 hg1 c' s' hk

theorem advPlayerSlot_frame (s : GameState) (j : ℕ) :
    ∃ bX bY, advPlayerSlot s j = { s with bulletX := bX, bulletY := bY } := by
  unfold advPlayerSlot
  dsimp only
  split_ifs <;> exact ⟨_, _, rfl⟩

theorem advancePlayerBullets_frame (s : GameState) :
    ∃ bX bY, advancePlayerBullets s = { s with bulletX := bX, bulletY := bY } := by
  show ∃ bX bY, (List.range MAX_PLAYER_BULLETS).foldl advPlayerSlot s = _
  generalize List.range MAX_PLAYER_BULLETS = js
  induction js generalizing s with
  | nil => exact ⟨_, _, rfl⟩
  | cons j t ih =>
    obtain ⟨B, C, h⟩ := advPlayerSlot_frame s j
    obtain ⟨B', C', h'⟩ := ih { s with bulletX := B, bulletY := C }
    exact ⟨B', C', by simp only [List.foldl_cons]; rw [h]; exact h'⟩

theorem advEnemySlot_frame (s : GameState) (j : ℕ) :
    ∃ a eX eY, advEnemySlot s j = { s with shipAlive := a, enemyBulletX := eX, enemyBulletY := eY } := by
  unfold advEnemySlot
  dsimp only
  split_ifs <;> exact ⟨_, _, _, rfl⟩

theorem advanceEnemyBullets_frame (s : GameState) :
    ∃ a eX eY, advanceEnemyBullets s = { s with shipAlive := a, enemyBulletX := eX, enemyBulletY := eY } := by
  show ∃ a eX eY, (List.range MAX_ENEMY_BULLETS).foldl advEnemySlot s = _
  generalize List.range MAX_ENEMY_BULLETS = js
  induction js generalizing s with
  | nil => exact ⟨_, _, _, rfl⟩
  | cons j t ih =>
    obtain ⟨a, B, C, h⟩ := advEnemySlot_frame s j
    obtain ⟨a', B', C', h'⟩ := ih { s with shipAlive := a, enemyBulletX := B, enemyBulletY := C }
    exact ⟨a', B', C', by simp only [List.foldl_cons]; rw [h]; exact h'⟩

theorem gameLoopAux_good (inp : Input) (s : GameState) (h : GoodState s) :
    (∀ t, gameLoopAux inp s = Except.ok t → GoodState t) ∧
    (∀ t, gameLoopAux inp s = Except.error t → t = gameReset) := by
  have hrowIdx : ∀ sp ∈ rowSpecs, sp.idx < 9 := by decide
  have hms := shipMove_good inp s h
  have hpf := playerFire_good inp _ hms
  unfold gameLoopAux
  rcases hSL : shipLife (playerFire inp (shipMove inp s)) with t1 | s1
  · refine ⟨?_, ?_⟩ <;> intro t ht <;> simp only [hSL] at ht
    · exact absurd ht (by simp)
    · simp only [Except.error.injEq] at ht
      exact ht ▸ shipLife_error _ t1 hSL
  · have hg1 := shipLife_good _ hpf s1 hSL
    rcases hCW : checkWin s1 with t2 | s2
    · refine ⟨?_, ?_⟩ <;> intro t ht <;> simp only [hSL, hCW] at ht
      · exact absurd ht (by simp)
      · simp only [Except.error.injEq] at ht
        exact ht ▸ checkWin_error _ t2 hCW
    · have hs2 : s2 = s1 := checkWin_ok s1 s2 hCW
      have hg2 : GoodState s2 := hs2 ▸ hg1
      have hgcd : GoodState (enemyCooldown inp s2).2 := enemyCooldown_good inp s2 hg2
      rcases hSW : sweepAliens rowSpecs (enemyCooldown inp s2) with t3 | q
      · refine ⟨?_, ?_⟩ <;> intro t ht <;> simp only [hSL, hCW, hSW] at ht
        · exact absurd ht (by simp)
        · simp only [Except.error.injEq] at ht
          have := sweep_error rowSpecs (enemyCooldown inp s2).1 (enemyCooldown inp s2).2 t3
          rw [Prod.mk.eta] at this
          exact ht ▸ this hSW
      · obtain ⟨c3, s3⟩ := q
        have hg3 : GoodState s3 := by
          have := sweep_good rowSpecs hrowIdx (enemyCooldown inp s2).1 (enemyCooldown inp s2).2 hgcd c3 s3
          rw [Prod.mk.eta] at this
          exact this hSW
        refine ⟨?_, ?_⟩ <;> intro t ht <;> simp only [hSL, hCW, hSW] at ht
        · have hgx : GoodState { s3 with enemyX := s3.enemyX + s3.enemyDX } := hg3
          obtain ⟨B, C, hap⟩ := advancePlayerBullets_frame { s3 with enemyX := s3.enemyX + s3.enemyDX }
          obtain ⟨a, eX, eY, hae⟩ := advanceEnemyBullets_frame
            (advancePlayerBullets { s3 with enemyX := s3.enemyX + s3.enemyDX })
          simp only [Except.ok.injEq] at ht
          subst ht
          rw [hae, hap]
          exact hgx
        · exact absurd ht (by simp)

theorem good_step (inp : Input) (s : GameState) (h : GoodState s) :
    GoodState (gameLoop inp s) := by
  unfold gameLoop
  rcases hga : gameLoopAux inp s with t | t
  · simp only [hga]
    exact ((gameLoopAux_good inp s h).2 t hga) ▸ goodReset
  · simp only [hga]
    exact (gameLoopAux_good inp s h).1 t hga

theorem good_reachable : ∀ s, Reachable s → GoodState s := by
  intro s h
  induction h with
  | reset => exact goodReset
  | step inp hs ih => exact good_step _ _ ih

/-! Per-slot characterization of the collision scan. -/

theorem collideStep_slot_ne (idx : ℕ) (x y : ℤ) (s : GameState) (k j : ℕ) (h : k ≠ j) :
    (collideStep idx x y s k).bulletX.getD j 0 = s.bulletX.getD j 0 ∧
    (collideStep idx x y s k).bulletY.getD j 0 = s.bulletY.getD j 0 := by
  unfold collideStep
  split_ifs with hh
  · constructor
    · show (s.bulletX.set k 0).getD j 0 = s.bulletX.getD j 0
      rw [getD_set, if_neg (fun hc => h hc.1)]
    · show (s.bulletY.set k 0).getD j 0 = s.bulletY.getD j 0
      rw [getD_set, if_neg (fun hc => h hc.1)]
  · exact ⟨rfl, rfl⟩

theorem collideStep_lens (idx : ℕ) (x y : ℤ) (s : GameState) (k : ℕ) :
    (collideStep idx x y s k).bulletX.length = s.bulletX.length ∧
    (collideStep idx x y s k).bulletY.length = s.bulletY.length := by
  unfold collideStep
  split_ifs with hh
  · constructor
    · show (s.bulletX.set k 0).length = s.bulletX.length
      rw [List.length_set]
    · show (s.bulletY.set k 0).length = s.bulletY.length
      rw [List.length_set]
  · exact ⟨rfl, rfl⟩

theorem foldCollide_lens (idx : ℕ) (x y : ℤ) (js : List ℕ) (s : GameState) :
    ((js.foldl (collideStep idx x y) s).bulletX.length = s.bulletX.length ∧
     (js.foldl (collideStep idx x y) s).bulletY.length = s.bulletY.length) := by
  induction js generalizing s with
  | nil => exact ⟨rfl, rfl⟩
  | cons k t ih =>
    obtain ⟨h1, h2⟩ := collideStep_lens idx x y s k
    obtain ⟨g1, g2⟩ := ih (collideStep idx x y s k)
    exact ⟨by simp only [List.foldl_cons]; rw [g1, h1],
           by simp only [List.foldl_cons]; rw [g2, h2]⟩

theorem foldCollide_ge (idx : ℕ) (x y : ℤ) (n : ℕ) (s : GameState) (j : ℕ) (h : n ≤ j) :
    ((List.range n).foldl (collideStep idx x y) s).bulletX.getD j 0 = s.bulletX.getD j 0 ∧
    ((List.range n).foldl (collideStep idx x y) s).bulletY.getD j 0 = s.bulletY.getD j 0 := by
  induction n generalizing s with
  | zero => exact ⟨rfl, rfl⟩
  | succ n ih =>
    rw [List.range_succ, List.foldl_append, List.foldl_cons, List.foldl_nil]
    obtain ⟨h1, h2⟩ := ih (by omega) (s := s)
    obtain ⟨g1, g2⟩ :=
      collideStep_slot_ne idx x y ((List.range n).foldl (collideStep idx x y) s) n j (by omega)
    exact ⟨g1.trans h1, g2.trans h2⟩

theorem foldCollide_slot (idx : ℕ) (x y : ℤ) (n j : ℕ) (hj : j < n) (s : GameState)
    (hlX : j < s.bulletX.length) (hlY : j < s.bulletY.length) :
    (((List.range n).foldl (collideStep idx x y) s).bulletX.getD j 0 =
        if inBox x y (s.bulletX.getD j 0) (s.bulletY.getD j 0) then 0 else s.bulletX.getD j 0) ∧
    (((List.range n).foldl (collideStep idx x y) s).bulletY.getD j 0 =
        if inBox x y (s.bulletX.getD j 0) (s.bulletY.getD j 0) then 0 else s.bulletY.getD j 0) := by
  induction n with
  | zero => omega
  | succ n ih =>
    rw [List.range_succ, List.foldl_append, List.foldl_cons, List.foldl_nil]
    by_cases hjn : j < n
    · obtain ⟨h1, h2⟩ := ih hjn
      obtain ⟨g1, g2⟩ :=
        collideStep_slot_ne idx x y ((List.range n).foldl (collideStep idx x y) s) n j (by omega)
      exact ⟨g1.trans h1, g2.trans h2⟩
    · have hje : j = n := by omega
      subst hje
      obtain ⟨p1, p2⟩ := foldCollide_ge idx x y j s j (le_refl j)
      obtain ⟨l1, l2⟩ := foldCollide_lens idx x y (List.range j) s
      have hstep : ∀ (t : GameState) (k : ℕ), collideStep idx x y t k =
          if inBox x y (t.bulletX.getD k 0) (t.bulletY.getD k 0) then
            { t with enemyAlive := t.enemyAlive.set idx START_DYING,
                     bulletX := t.bulletX.set k 0, bulletY := t.bulletY.set k 0 }
          else t := fun t k => rfl
      rw [hstep, p1, p2]
      split_ifs with hh
      · constructor
        · show ((((List.range j).foldl (collideStep idx x y) s).bulletX).set j 0).getD j 0 = 0
          rw [getD_set, if_pos ⟨rfl, by rw [l1]; exact hlX⟩]
        · show ((((List.range j).foldl (collideStep idx x y) s).bulletY).set j 0).getD j 0 = 0
          rw [getD_set, if_pos ⟨rfl, by rw [l2]; exact hlY⟩]
      · exact ⟨p1, p2⟩

theorem collideStep_alive (idx : ℕ) (x y : ℤ) (s : GameState) (k : ℕ) :
    (collideStep idx x y s k).enemyAlive =
      if inBox x y (s.bulletX.getD k 0) (s.bulletY.getD k 0)
      then s.enemyAlive.set idx START_DYING else s.enemyAlive := by
  unfold collideStep
  split_ifs with hh <;> rfl

theorem foldCollide_alive (idx : ℕ) (x y : ℤ) (n : ℕ) (s : GameState) :
    ((List.range n).foldl (collideStep idx x y) s).enemyAlive =
      if ∃ j, j < n ∧ inBox x y (s.bulletX.getD j 0) (s.bulletY.getD j 0)
      then s.enemyAlive.set idx START_DYING else s.enemyAlive := by
  induction n with
  | zero => rw [if_neg (by rintro ⟨j, hj, -⟩; omega)]; rfl
  | succ n ih =>
    rw [List.range_succ, List.foldl_append, List.foldl_cons, List.foldl_nil]
    obtain ⟨p1, p2⟩ := foldCollide_ge idx x y n s n (le_refl n)
    rw [collideStep_alive, p1, p2, ih]
    by_cases hhit : inBox x y (s.bulletX.getD n 0) (s.bulletY.getD n 0)
    · have hsucc : ∃ j, j < n + 1 ∧ inBox x y (s.bulletX.getD j 0) (s.bulletY.getD j 0) :=
        ⟨n, Nat.lt_succ_self n, hhit⟩
      rw [if_pos hhit, if_pos hsucc]
      by_cases hex : ∃ j, j < n ∧ inBox x y (s.bulletX.getD j 0) (s.bulletY.getD j 0)
      · rw [if_pos hex, List.set_set]
      · rw [if_neg hex]
    · rw [if_neg hhit]
      by_cases hex : ∃ j, j < n ∧ inBox x y (s.bulletX.getD j 0) (s.bulletY.getD j 0)
      · have hsucc : ∃ j, j < n + 1 ∧ inBox x y (s.bulletX.getD j 0) (s.bulletY.getD j 0) := by
          obtain ⟨j, hj, hb⟩ := hex
          exact ⟨j, by omega, hb⟩
        rw [if_pos hex, if_pos hsucc]
      · have hsucc : ¬∃ j, j < n + 1 ∧ inBox x y (s.bulletX.getD j 0) (s.bulletY.getD j 0) := by
          rintro ⟨j, hj, hb⟩
          rcases Nat.lt_succ_iff_lt_or_eq.mp hj with hlt | heq
          · exact hex ⟨j, hlt, hb⟩
          · subst heq
            exact hhit hb
        rw [if_neg hex, if_neg hsucc]

/-! Per-slot characterization of the two bullet advancement loops. -/

theorem advPlayerSlot_slot_ne (s : GameState) (k j : ℕ) (h : k ≠ j) :
    (advPlayerSlot s k).bulletX.getD j 0 = s.bulletX.getD j 0 ∧
    (advPlayerSlot s k).bulletY.getD j 0 = s.bulletY.getD j 0 := by
  unfold advPlayerSlot
  dsimp only
  split_ifs
  · constructor
    · show (s.bulletX.set k 0).getD j 0 = s.bulletX.getD j 0
      rw [getD_set, if_neg (fun hc => h hc.1)]
    · show (s.bulletY.set k 0).getD j 0 = s.bulletY.getD j 0
      rw [getD_set, if_neg (fun hc => h hc.1)]
  · constructor
    · rfl
    · show (s.bulletY.set k _).getD j 0 = s.bulletY.getD j 0
      rw [getD_set, if_neg (fun hc => h hc.1)]
  · exact ⟨rfl, rfl⟩

theorem advPlayerSlot_lens (s : GameState) (k : ℕ) :
    (advPlayerSlot s k).bulletX.length = s.bulletX.length ∧
    (advPlayerSlot s k).bulletY.length = s.bulletY.length := by
  unfold advPlayerSlot
  dsimp only
  split_ifs
  · exact ⟨by show (s.bulletX.set k 0).length = _; rw [List.length_set],
           by show (s.bulletY.set k 0).length = _; rw [List.length_set]⟩
  · exact ⟨rfl, by show (s.bulletY.set k _).length = _; rw [List.length_set]⟩
  · exact ⟨rfl, rfl⟩

theorem advPlayer_ge (n : ℕ) (s : GameState) (j : ℕ) (h : n ≤ j) :
    ((List.range n).foldl advPlayerSlot s).bulletX.getD j 0 = s.bulletX.getD j 0 ∧
    ((List.range n).foldl advPlayerSlot s).bulletY.getD j 0 = s.bulletY.getD j 0 := by
  induction n generalizing s with
  | zero => exact ⟨rfl, rfl⟩
  | succ n ih =>
    rw [List.range_succ, List.foldl_append, List.foldl_cons, List.foldl_nil]
    obtain ⟨h1, h2⟩ := ih (by omega) (s := s)
    obtain ⟨g1, g2⟩ := advPlayerSlot_slot_ne ((List.range n).foldl advPlayerSlot s) n j (by omega)
    exact ⟨g1.trans h1, g2.trans h2⟩

theorem advPlayer_lens (js : List ℕ) (s : GameState) :
    ((js.foldl advPlayerSlot s).bulletX.length = s.bulletX.length ∧
     (js.foldl advPlayerSlot s).bulletY.length = s.bulletY.length) := by
  induction js generalizing s with
  | nil => exact ⟨rfl, rfl⟩
  | cons k t ih =>
    obtain ⟨h1, h2⟩ := advPlayerSlot_lens s k
    obtain ⟨g1, g2⟩ := ih (advPlayerSlot s k)
    exact ⟨by simp only [List.foldl_cons]; rw [g1, h1],
           by simp only [List.foldl_cons]; rw [g2, h2]⟩

theorem advPlayer_slot (n j : ℕ) (hj : j < n) (s : GameState)
    (hlX : j < s.bulletX.length) (hlY : j < s.bulletY.length) :
    (((List.range n).foldl advPlayerSlot s).bulletX.getD j 0 =
      if s.bulletX.getD j 0 ≠ 0 ∧ s.bulletY.getD j 0 ≠ 0 then
        if (s.bulletY.getD j 0 + 256 - SHIP_BULL_SPEED) % 256 = 0 ∨
            SCREEN_HEIGHT < (s.bulletY.getD j 0 + 256 - SHIP_BULL_SPEED) % 256
        then 0 else s.bulletX.getD j 0
      else s.bulletX.getD j 0) ∧
    (((List.range n).foldl advPlayerSlot s).bulletY.getD j 0 =
      if s.bulletX.getD j 0 ≠ 0 ∧ s.bulletY.getD j 0 ≠ 0 then
        if (s.bulletY.getD j 0 + 256 - SHIP_BULL_SPEED) % 256 = 0 ∨
            SCREEN_HEIGHT < (s.bulletY.getD j 0 + 256 - SHIP_BULL_SPEED) % 256
        then 0 else (s.bulletY.getD j 0 + 256 - SHIP_BULL_SPEED) % 256
      else s.bulletY.getD j 0) := by
  induction n with
  | zero => omega
  | succ n ih =>
    rw [List.range_succ, List.foldl_append, List.foldl_cons, List.foldl_nil]
    by_cases hjn : j < n
    · obtain ⟨g1, g2⟩ := advPlayerSlot_slot_ne ((List.range n).foldl advPlayerSlot s) n j (by omega)
      obtain ⟨i1, i2⟩ := ih hjn
      exact ⟨g1.trans i1, g2.trans i2⟩
    · have hje : j = n := by omega
      subst hje
      obtain ⟨p1, p2⟩ := advPlayer_ge j s j (le_refl j)
      obtain ⟨l1, l2⟩ := advPlayer_lens (List.range j) s
      have hstep : ∀ (t : GameState) (k : ℕ), advPlayerSlot t k =
          if t.bulletX.getD k 0 ≠ 0 ∧ t.bulletY.getD k 0 ≠ 0 then
            if (t.bulletY.getD k 0 + 256 - SHIP_BULL_SPEED) % 256 = 0 ∨
                SCREEN_HEIGHT < (t.bulletY.getD k 0 + 256 - SHIP_BULL_SPEED) % 256
            then { t with bulletX := t.bulletX.set k 0, bulletY := t.bulletY.set k 0 }
            else { t with bulletY := t.bulletY.set k ((t.bulletY.getD k 0 + 256 - SHIP_BULL_SPEED) % 256) }
          else t := fun t k => rfl
      rw [hstep, p1, p2]
      split_ifs with hact hout
      · constructor
        · show ((((List.range j).foldl advPlayerSlot s).bulletX).set j 0).getD j 0 = 0
          rw [getD_set, if_pos ⟨rfl, by rw [l1]; exact hlX⟩]
        · show ((((List.range j).foldl advPlayerSlot s).bulletY).set j 0).getD j 0 = 0
          rw [getD_set, if_pos ⟨rfl, by rw [l2]; exact hlY⟩]
      · constructor
        · exact p1
        · show ((((List.range j).foldl advPlayerSlot s).bulletY).set j _).getD j 0 = _
          rw [getD_set, if_pos ⟨rfl, by rw [l2]; exact hlY⟩]
      · exact ⟨p1, p2⟩

theorem advEnemySlot_slot_ne (s : GameState) (k j : ℕ) (h : k ≠ j) :
    (advEnemySlot s k).enemyBulletX.getD j 0 = s.enemyBulletX.getD j 0 ∧
    (advEnemySlot s k).enemyBulletY.getD j 0 = s.enemyBulletY.getD j 0 := by
  unfold advEnemySlot
  dsimp only
  split_ifs <;> constructor <;> simp [getD_set, List.length_set, h]

theorem advEnemySlot_lens (s : GameState) (k : ℕ) :
    (advEnemySlot s k).enemyBulletX.length = s.enemyBulletX.length ∧
    (advEnemySlot s k).enemyBulletY.length = s.enemyBulletY.length := by
  unfold advEnemySlot
  dsimp only
  split_ifs <;> constructor <;> simp [List.length_set]

theorem advEnemySlot_ship (s : GameState) (k : ℕ) :
    (advEnemySlot s k).shipX = s.shipX ∧ (advEnemySlot s k).shipY = s.shipY := by
  unfold advEnemySlot
  dsimp only
  split_ifs <;> exact ⟨rfl, rfl⟩

theorem advEnemy_ge (n : ℕ) (s : GameState) (j : ℕ) (h : n ≤ j) :
    ((List.range n).foldl advEnemySlot s).enemyBulletX.getD j 0 = s.enemyBulletX.getD j 0 ∧
    ((List.range n).foldl advEnemySlot s).enemyBulletY.getD j 0 = s.enemyBulletY.getD j 0 := by
  induction n generalizing s with
  | zero => exact ⟨rfl, rfl⟩
  | succ n ih =>
    rw [List.range_succ, List.foldl_append, List.foldl_cons, List.foldl_nil]
    obtain ⟨h1, h2⟩ := ih (by omega) (s := s)
    obtain ⟨g1, g2⟩ := advEnemySlot_slot_ne ((List.range n).foldl advEnemySlot s) n j (by omega)
    exact ⟨g1.trans h1, g2.trans h2⟩

theorem advEnemy_ship (js : List ℕ) (s : GameState) :
    ((js.foldl advEnemySlot s).shipX = s.shipX ∧ (js.foldl advEnemySlot s).shipY = s.shipY) := by
  induction js generalizing s with
  | nil => exact ⟨rfl, rfl⟩
  | cons k t ih =>
    obtain ⟨h1, h2⟩ := advEnemySlot_ship s k
    obtain ⟨g1, g2⟩ := ih (advEnemySlot s k)
    exact ⟨by simp only [List.foldl_cons]; rw [g1, h1],
           by simp only [List.foldl_cons]; rw [g2, h2]⟩

theorem advEnemy_lens (js : List ℕ) (s : GameState) :
    ((js.foldl advEnemySlot s).enemyBulletX.length = s.enemyBulletX.length ∧
     (js.foldl advEnemySlot s).enemyBulletY.length = s.enemyBulletY.length) := by
  induction js generalizing s with
  | nil => exact ⟨rfl, rfl⟩
  | cons k t ih =>
    obtain ⟨h1, h2⟩ := advEnemySlot_lens s k
    obtain ⟨g1, g2⟩ := ih (advEnemySlot s k)
    exact ⟨by simp only [List.foldl_cons]; rw [g1, h1],
           by simp only [List.foldl_cons]; rw [g2, h2]⟩

theorem advEnemySlot_self (t : GameState) (k : ℕ)
    (hk1 : k < t.enemyBulletX.length) (hk2 : k < t.enemyBulletY.length) :
    ((advEnemySlot t k).enemyBulletX.getD k 0 =
      if t.enemyBulletX.getD k 0 ≠ 0 ∧ t.enemyBulletY.getD k 0 ≠ 0 then
        if t.shipX ≤ t.enemyBulletX.getD k 0 ∧ t.enemyBulletX.getD k 0 ≤ t.shipX + SHIP_WIDTH ∧
            t.shipY ≤ (t.enemyBulletY.getD k 0 + ENEMY_BULLET_SPEED) % 256 ∧
            (t.enemyBulletY.getD k 0 + ENEMY_BULLET_SPEED) % 256 ≤ t.shipY + SHIP_HEIGHT
        then 0
        else if SCREEN_HEIGHT ≤ (t.enemyBulletY.getD k 0 + ENEMY_BULLET_SPEED) % 256
          then 0 else t.enemyBulletX.getD k 0
      else t.enemyBulletX.getD k 0) ∧
    ((advEnemySlot t k).enemyBulletY.getD k 0 =
      if t.enemyBulletX.getD k 0 ≠ 0 ∧ t.enemyBulletY.getD k 0 ≠ 0 then
        if t.shipX ≤ t.enemyBulletX.getD k 0 ∧ t.enemyBulletX.getD k 0 ≤ t.shipX + SHIP_WIDTH ∧
            t.shipY ≤ (t.enemyBulletY.getD k 0 + ENEMY_BULLET_SPEED) % 256 ∧
            (t.enemyBulletY.getD k 0 + ENEMY_BULLET_SPEED) % 256 ≤ t.shipY + SHIP_HEIGHT
        then 0
        else if SCREEN_HEIGHT ≤ (t.enemyBulletY.getD k 0 + ENEMY_BULLET_SPEED) % 256
          then 0 else (t.enemyBulletY.getD k 0 + ENEMY_BULLET_SPEED) % 256
      else t.enemyBulletY.getD k 0) := by
  unfold advEnemySlot
  dsimp only
  have hy : (t.enemyBulletY.set k ((t.enemyBulletY.getD k 0 + ENEMY_BULLET_SPEED) % 256)).getD k 0
      = (t.enemyBulletY.getD k 0 + ENEMY_BULLET_SPEED) % 256 := by
    rw [getD_set, if_pos ⟨rfl, hk2⟩]
  have hz : ((t.enemyBulletY.set k ((t.enemyBulletY.getD k 0 + ENEMY_BULLET_SPEED) % 256)).set k 0).getD k 0
      = 0 := by
    rw [getD_set, if_pos ⟨rfl, by rw [List.length_set]; exact hk2⟩]
  have hzx : (t.enemyBulletX.set k 0).getD k 0 = 0 := by
    rw [getD_set, if_pos ⟨rfl, hk1⟩]
  by_cases hact : t.enemyBulletX.getD k 0 ≠ 0 ∧ t.enemyBulletY.getD k 0 ≠ 0
  · rw [if_pos hact]
    rw [if_pos hact]
    rw [if_pos hact]
    rw [hy]
    by_cases hbox : t.shipX ≤ t.enemyBulletX.getD k 0 ∧ t.enemyBulletX.getD k 0 ≤ t.shipX + SHIP_WIDTH ∧
        t.shipY ≤ (t.enemyBulletY.getD k 0 + ENEMY_BULLET_SPEED) % 256 ∧
        (t.enemyBulletY.getD k 0 + ENEMY_BULLET_SPEED) % 256 ≤ t.shipY + SHIP_HEIGHT
    · rw [if_pos hbox]
      rw [if_pos hbox]
      rw [if_pos hbox]
      by_cases hship : t.shipAlive = ALIVE
      · rw [if_pos hship]
        dsimp only
        rw [hz, if_neg (by decide : ¬ SCREEN_HEIGHT ≤ 0)]
        exact ⟨hzx, hz⟩
      · rw [if_neg hship]
        dsimp only
        rw [hz, if_neg (by decide : ¬ SCREEN_HEIGHT ≤ 0)]
        exact ⟨hzx, hz⟩
    · rw [if_neg hbox]
      rw [if_neg hbox]
      rw [if_neg hbox]
      dsimp only
      rw [hy]
      by_cases hout : SCREEN_HEIGHT ≤ (t.enemyBulletY.getD k 0 + ENEMY_BULLET_SPEED) % 256
      · rw [if_pos hout]
        rw [if_pos hout]
        rw [if_pos hout]
        exact ⟨hzx, hz⟩
      · rw [if_neg hout]
        rw [if_neg hout]
        rw [if_neg hout]
        exact ⟨rfl, hy⟩
  · rw [if_neg hact]
    rw [if_neg hact]
    rw [if_neg hact]
    exact ⟨rfl, rfl⟩

theorem advEnemy_slot (n j : ℕ) (hj : j < n) (s : GameState)
    (hlX : j < s.enemyBulletX.length) (hlY : j < s.enemyBulletY.length) :
    (((List.range n).foldl advEnemySlot s).enemyBulletX.getD j 0 =
      if s.enemyBulletX.getD j 0 ≠ 0 ∧ s.enemyBulletY.getD j 0 ≠ 0 then
        if s.shipX ≤ s.enemyBulletX.getD j 0 ∧ s.enemyBulletX.getD j 0 ≤ s.shipX + SHIP_WIDTH ∧
            s.shipY ≤ (s.enemyBulletY.getD j 0 + ENEMY_BULLET_SPEED) % 256 ∧
            (s.enemyBulletY.getD j 0 + ENEMY_BULLET_SPEED) % 256 ≤ s.shipY + SHIP_HEIGHT
        then 0
        else if SCREEN_HEIGHT ≤ (s.enemyBulletY.getD j 0 + ENEMY_BULLET_SPEED) % 256
          then 0 else s.enemyBulletX.getD j 0
      else s.enemyBulletX.getD j 0) ∧
    (((List.range n).foldl advEnemySlot s).enemyBulletY.getD j 0 =
      if s.enemyBulletX.getD j 0 ≠ 0 ∧ s.enemyBulletY.getD j 0 ≠ 0 then
        if s.shipX ≤ s.enemyBulletX.getD j 0 ∧ s.enemyBulletX.getD j 0 ≤ s.shipX + SHIP_WIDTH ∧
            s.shipY ≤ (s.enemyBulletY.getD j 0 + ENEMY_BULLET_SPEED) % 256 ∧
            (s.enemyBulletY.getD j 0 + ENEMY_BULLET_SPEED) % 256 ≤ s.shipY + SHIP_HEIGHT
        then 0
        else if SCREEN_HEIGHT ≤ (s.enemyBulletY.getD j 0 + ENEMY_BULLET_SPEED) % 256
          then 0 else (s.enemyBulletY.getD j 0 + ENEMY_BULLET_SPEED) % 256
      else s.enemyBulletY.getD j 0) := by
  induction n with
  | zero => omega
  | succ n ih =>
    rw [List.range_succ, List.foldl_append, List.foldl_cons, List.foldl_nil]
    by_cases hjn : j < n
    · obtain ⟨g1, g2⟩ := advEnemySlot_slot_ne ((List.range n).foldl advEnemySlot s) n j (by omega)
      obtain ⟨i1, i2⟩ := ih hjn
      exact ⟨g1.trans i1, g2.trans i2⟩
    · have hje : j = n := by omega
      subst hje
      obtain ⟨p1, p2⟩ := advEnemy_ge j s j (le_refl j)
      obtain ⟨hs1, hs2⟩ := advEnemy_ship (List.range j) s
      obtain ⟨l1, l2⟩ := advEnemy_lens (List.range j) s
      generalize hT : (List.range j).foldl advEnemySlot s = T at p1 p2 hs1 hs2 l1 l2
      have hl1 : j < T.enemyBulletX.length := by rw [l1]; exact hlX
      have hl2 : j < T.enemyBulletY.length := by rw [l2]; exact hlY
      obtain ⟨e1, e2⟩ := advEnemySlot_self T j hl1 hl2
      rw [e1, e2, p1, p2, hs1, hs2]
      exact ⟨rfl, rfl⟩

theorem advEnemySlot_shipAlive (s : GameState) (k : ℕ) :
    (advEnemySlot s k).shipAlive = s.shipAlive ∨
      (s.shipAlive = ALIVE ∧ (advEnemySlot s k).shipAlive = START_DYING) := by
  unfold advEnemySlot
  dsimp only
  split_ifs <;> first | exact Or.inl rfl | exact Or.inr ⟨by assumption, rfl⟩

theorem advanceEnemyBullets_shipAlive (s : GameState) :
    (advanceEnemyBullets s).shipAlive = s.shipAlive ∨
      (s.shipAlive = ALIVE ∧ (advanceEnemyBullets s).shipAlive = START_DYING) := by
  show ((List.range MAX_ENEMY_BULLETS).foldl advEnemySlot s).shipAlive = s.shipAlive ∨
    (s.shipAlive = ALIVE ∧
      ((List.range MAX_ENEMY_BULLETS).foldl advEnemySlot s).shipAlive = START_DYING)
  generalize List.range MAX_ENEMY_BULLETS = js
  induction js generalizing s with
  | nil => exact Or.inl rfl
  | cons k t ih =>
    simp only [List.foldl_cons]
    rcases advEnemySlot_shipAlive s k with h1 | ⟨h7, h6⟩
    · rcases ih (advEnemySlot s k) with g1 | ⟨g7, g6⟩
      · exact Or.inl (g1.trans h1)
      · rw [h1] at g7
        exact Or.inr ⟨g7, g6⟩
    · rcases ih (advEnemySlot s k) with g1 | ⟨g7, g6⟩
      · exact Or.inr ⟨h7, g1.trans h6⟩
      · rw [h6] at g7
        exact absurd g7 (by decide)

theorem sweepAliens_append (l1 l2 : List SlotSpec) (p : ℤ × GameState) :
    sweepAliens (l1 ++ l2) p =
      match sweepAliens l1 p with
      | Except.error t => Except.error t
      | Except.ok q => sweepAliens l2 q := by
  induction l1 generalizing p with
  | nil => rfl
  | cons sp t ih =>
    show sweepAliens (sp :: (t ++ l2)) p = _
    simp only [sweepAliens]
    cases alienStep sp p with
    | error u => rfl
    | ok q => exact ih q

theorem getD_replicate (n j : ℕ) : (List.replicate n (0 : ℕ)).getD j 0 = 0 := by
  induction n generalizing j with
  | zero => rfl
  | succ n ih =>
    cases j with
    | zero => rfl
    | succ j => simpa [List.replicate_succ] using ih j

theorem advPlayerSlot_id (s : GameState) (j : ℕ) (h : s.bulletX.getD j 0 = 0) :
    advPlayerSlot s j = s := by
  unfold advPlayerSlot
  dsimp only
  rw [if_neg (fun hc => hc.1 h)]

theorem advancePlayerBullets_id (s : GameState) (h : ∀ j, s.bulletX.getD j 0 = 0) :
    advancePlayerBullets s = s := by
  show (List.range MAX_PLAYER_BULLETS).foldl advPlayerSlot s = s
  generalize List.range MAX_PLAYER_BULLETS = js
  induction js with
  | nil => rfl
  | cons k t ih =>
    simp only [List.foldl_cons]
    rw [advPlayerSlot_id s k (h k)]
    exact ih

theorem advEnemySlot_id (s : GameState) (j : ℕ) (h : s.enemyBulletX.getD j 0 = 0) :
    advEnemySlot s j = s := by
  unfold advEnemySlot
  dsimp only
  rw [if_neg (fun hc => hc.1 h)]

theorem advanceEnemyBullets_id (s : GameState) (h : ∀ j, s.enemyBulletX.getD j 0 = 0) :
    advanceEnemyBullets s = s := by
  show (List.range MAX_ENEMY_BULLETS).foldl advEnemySlot s = s
  generalize List.range MAX_ENEMY_BULLETS = js
  induction js with
  | nil => rfl
  | cons k t ih =>
    simp only [List.foldl_cons]
    rw [advEnemySlot_id s k (h k)]
    exact ih


/-! Tracking of one alien slot through the sweep. -/

theorem collideStep_alive_ne (idx : ℕ) (x y : ℤ) (s : GameState) (k i : ℕ) (hne : idx ≠ i) :
    (collideStep idx x y s k).enemyAlive.getD i 0 = s.enemyAlive.getD i 0 := by
  rw [collideStep_alive]
  split_ifs
  · rw [getD_set, if_neg (fun hc => hne hc.1)]
  · rfl

theorem foldCollide_alive_ne (idx : ℕ) (x y : ℤ) (js : List ℕ) (s : GameState) (i : ℕ)
    (hne : idx ≠ i) :
    ((js.foldl (collideStep idx x y) s).enemyAlive.getD i 0 = s.enemyAlive.getD i 0) := by
  induction js generalizing s with
  | nil => rfl
  | cons k t ih =>
    simp only [List.foldl_cons]
    exact (ih (collideStep idx x y s k)).trans (collideStep_alive_ne idx x y s k i hne)

theorem alienLife_alive_ne (idx : ℕ) (s : GameState) (i : ℕ) (hne : idx ≠ i) :
    (alienLife idx s).enemyAlive.getD i 0 = s.enemyAlive.getD i 0 := by
  unfold alienLife
  dsimp only
  split_ifs
  · show (s.enemyAlive.set idx _).getD i 0 = _
    rw [getD_set, if_neg (fun hc => hne hc.1)]
  · show (s.enemyAlive.set idx _).getD i 0 = _
    rw [getD_set, if_neg (fun hc => hne hc.1)]
  · rfl

theorem alienStep_alive_ne (sp : SlotSpec) (c : ℤ) (s : GameState) (i : ℕ) (hne : sp.idx ≠ i) :
    ∀ c' s', alienStep sp (c, s) = Except.ok (c', s') →
      s'.enemyAlive.getD i 0 = s.enemyAlive.getD i 0 := by
  intro c' s' h
  unfold alienStep at h
  dsimp only at h
  by_cases hdrawn : (s.enemyAlive.getD sp.idx 0) % 2 = 1
  · rw [if_pos hdrawn] at h
    by_cases hground : (SCREEN_HEIGHT : ℤ) ≤ ratTrunc (s.enemyY + sp.yOff) + (ALIEN_HEIGHT : ℤ)
    · rw [if_pos hground] at h
      exact absurd h (by simp)
    · rw [if_neg hground] at h
      simp only [Except.ok.injEq, Prod.mk.injEq] at h
      obtain ⟨-, h2⟩ := h
      subst h2
      rw [alienLife_alive_ne _ _ _ hne]
      rw [show collideBullets sp.idx _ _ _ = _ from rfl]
      refine (foldCollide_alive_ne sp.idx _ _ _ _ i hne).trans ?_
      split_ifs <;> rfl
  · rw [if_neg hdrawn] at h
    simp only [Except.ok.injEq, Prod.mk.injEq] at h
    obtain ⟨-, h2⟩ := h
    subst h2
    exact alienLife_alive_ne _ _ _ hne

theorem sweep_alive_ne (specs : List SlotSpec) (c : ℤ) (s : GameState) (i : ℕ)
    (hall : ∀ sp ∈ specs, sp.idx ≠ i) :
    ∀ c' s', sweepAliens specs (c, s) = Except.ok (c', s') →
      s'.enemyAlive.getD i 0 = s.enemyAlive.getD i 0 := by
  induction specs generalizing c s with
  | nil =>
    intro c' s' h
    simp only [sweepAliens, Except.ok.injEq, Prod.mk.injEq] at h
    obtain ⟨-, h2⟩ := h
    subst h2
    rfl
  | cons sp rest ih =>
    intro c' s' h
    simp only [sweepAliens] at h
    rcases hstep : alienStep sp (c, s) with t | q
    · rw [hstep] at h
      exact absurd h (by simp)
    · rw [hstep] at h
      obtain ⟨c1, s1⟩ := q
      refine (ih c1 s1 (fun x hx => hall x (List.mem_cons_of_mem sp hx)) c' s' h).trans ?_
      exact alienStep_alive_ne sp c s i (hall sp (List.mem_cons_self sp rest)) c1 s1 hstep

theorem collideStep_alive_len (idx : ℕ) (x y : ℤ) (s : GameState) (k : ℕ) :
    (collideStep idx x y s k).enemyAlive.length = s.enemyAlive.length := by
  rw [collideStep_alive]
  split_ifs
  · rw [List.length_set]
  · rfl

theorem foldCollide_alive_len (idx : ℕ) (x y : ℤ) (js : List ℕ) (s : GameState) :
    ((js.foldl (collideStep idx x y) s).enemyAlive.length = s.enemyAlive.length) := by
  induction js generalizing s with
  | nil => rfl
  | cons k t ih =>
    simp only [List.foldl_cons]
    exact (ih (collideStep idx x y s k)).trans (collideStep_alive_len idx x y s k)

theorem alienLife_alive_len (idx : ℕ) (s : GameState) :
    (alienLife idx s).enemyAlive.length = s.enemyAlive.length := by
  unfold alienLife
  dsimp only
  split_ifs
  · show (s.enemyAlive.set idx _).length = _
    rw [List.length_set]
  · show (s.enemyAlive.set idx _).length = _
    rw [List.length_set]
  · rfl

theorem alienStep_alive_len (sp : SlotSpec) (c : ℤ) (s : GameState) :
    ∀ c' s', alienStep sp (c, s) = Except.ok (c', s') →
      s'.enemyAlive.length = s.enemyAlive.length := by
  intro c' s' h
  unfold alienStep at h
  dsimp only at h
  by_cases hdrawn : (s.enemyAlive.getD sp.idx 0) % 2 = 1
  · rw [if_pos hdrawn] at h
    by_cases hground : (SCREEN_HEIGHT : ℤ) ≤ ratTrunc (s.enemyY + sp.yOff) + (ALIEN_HEIGHT : ℤ)
    · rw [if_pos hground] at h
      exact absurd h (by simp)
    · rw [if_neg hground] at h
      simp only [Except.ok.injEq, Prod.mk.injEq] at h
      obtain ⟨-, h2⟩ := h
      subst h2
      rw [alienLife_alive_len]
      refine (foldCollide_alive_len sp.idx _ _ _ _).trans ?_
      split_ifs <;> rfl
  · rw [if_neg hdrawn] at h
    simp only [Except.ok.injEq, Prod.mk.injEq] at h
    obtain ⟨-, h2⟩ := h
    subst h2
    exact alienLife_alive_len _ _

theorem alienLife_alive_self (idx : ℕ) (s : GameState) (hidx : idx < s.enemyAlive.length)
    (h0 : 0 < s.enemyAlive.getD idx 0) (h7 : s.enemyAlive.getD idx 0 < ALIVE) :
    (alienLife idx s).enemyAlive.getD idx 0 = s.enemyAlive.getD idx 0 - 1 := by
  unfold alienLife
  dsimp only
  rw [if_pos ⟨h0, h7⟩]
  split_ifs
  · show (s.enemyAlive.set idx _).getD idx 0 = _
    rw [getD_set, if_pos ⟨rfl, hidx⟩]
  · show (s.enemyAlive.set idx _).getD idx 0 = _
    rw [getD_set, if_pos ⟨rfl, hidx⟩]

theorem resolve_alive_self (idx : ℕ) (x y : ℤ) (u : GameState)
    (hidx : idx < u.enemyAlive.length)
    (h0 : 0 < u.enemyAlive.getD idx 0) (h7 : u.enemyAlive.getD idx 0 < ALIVE) :
    (alienLife idx (collideBullets idx x y u)).enemyAlive.getD idx 0 = u.enemyAlive.getD idx 0 - 1 ∨
    (alienLife idx (collideBullets idx x y u)).enemyAlive.getD idx 0 = ALIVE - 2 := by
  by_cases hex : ∃ j, j < MAX_PLAYER_BULLETS ∧ inBox x y (u.bulletX.getD j 0) (u.bulletY.getD j 0)
  · have hT : (collideBullets idx x y u).enemyAlive = u.enemyAlive.set idx START_DYING := by
      show ((List.range MAX_PLAYER_BULLETS).foldl (collideStep idx x y) u).enemyAlive = _
      rw [foldCollide_alive, if_pos hex]
    have hlen : idx < (collideBullets idx x y u).enemyAlive.length := by
      show idx < ((List.range MAX_PLAYER_BULLETS).foldl (collideStep idx x y) u).enemyAlive.length
      rw [foldCollide_alive_len]
      exact hidx
    have hgd : (collideBullets idx x y u).enemyAlive.getD idx 0 = START_DYING := by
      rw [hT, getD_set, if_pos ⟨rfl, hidx⟩]
    right
    rw [alienLife_alive_self idx _ hlen (by rw [hgd]; decide) (by rw [hgd]; decide), hgd]
    decide
  · have hT : (collideBullets idx x y u).enemyAlive = u.enemyAlive := by
      show ((List.range MAX_PLAYER_BULLETS).foldl (collideStep idx x y) u).enemyAlive = _
      rw [foldCollide_alive, if_neg hex]
    have hlen : idx < (collideBullets idx x y u).enemyAlive.length := by
      show idx < ((List.range MAX_PLAYER_BULLETS).foldl (collideStep idx x y) u).enemyAlive.length
      rw [foldCollide_alive_len]
      exact hidx
    have hgd : (collideBullets idx x y u).enemyAlive.getD idx 0 = u.enemyAlive.getD idx 0 := by
      rw [hT]
    left
    rw [alienLife_alive_self idx _ hlen (by rw [hgd]; exact h0) (by rw [hgd]; exact h7), hgd]

theorem alienStep_alive_self (sp : SlotSpec) (c : ℤ) (s : GameState)
    (hidx : sp.idx < s.enemyAlive.length)
    (h0 : 0 < s.enemyAlive.getD sp.idx 0) (h7 : s.enemyAlive.getD sp.idx 0 < ALIVE) :
    ∀ c' s', alienStep sp (c, s) = Except.ok (c', s') →
      (s'.enemyAlive.getD sp.idx 0 = s.enemyAlive.getD sp.idx 0 - 1 ∨
       s'.enemyAlive.getD sp.idx 0 = ALIVE - 2) := by
  intro c' s' h
  unfold alienStep at h
  dsimp only at h
  by_cases hdrawn : (s.enemyAlive.getD sp.idx 0) % 2 = 1
  · rw [if_pos hdrawn] at h
    by_cases hground : (SCREEN_HEIGHT : ℤ) ≤ ratTrunc (s.enemyY + sp.yOff) + (ALIEN_HEIGHT : ℤ)
    · rw [if_pos hground] at h
      exact absurd h (by simp)
    · rw [if_neg hground] at h
      by_cases hc0 : c = 0 <;> [rw [if_pos hc0] at h; rw [if_neg hc0] at h] <;>
        by_cases hedge : (ratTrunc (s.enemyX + sp.xOff) ≤ 0 ∨
            (SCREEN_WIDTH : ℤ) ≤ ratTrunc (s.enemyX + sp.xOff) + (ALIEN_WIDTH : ℤ)) <;>
        [rw [if_pos hedge] at h; rw [if_neg hedge] at h; rw [if_pos hedge] at h;
         rw [if_neg hedge] at h] <;>
        simp only [Except.ok.injEq, Prod.mk.injEq] at h <;>
        obtain ⟨-, h2⟩ := h <;>
        subst h2 <;>
        exact resolve_alive_self sp.idx _ _ _ hidx h0 h7
  · rw [if_neg hdrawn] at h
    simp only [Except.ok.injEq, Prod.mk.injEq] at h
    obtain ⟨-, h2⟩ := h
    subst h2
    exact Or.inl (alienLife_alive_self sp.idx s hidx h0 h7)

/-! Resolved forms of one sweep iteration, and the drawn list. -/

theorem collideStep_id (idx : ℕ) (x y : ℤ) (u : GameState) (j : ℕ)
    (h : ¬ inBox x y (u.bulletX.getD j 0) (u.bulletY.getD j 0)) :
    collideStep idx x y u j = u := by
  unfold collideStep
  rw [if_neg h]

theorem collideBullets_id (idx : ℕ) (x y : ℤ) (u : GameState)
    (h : ∀ j, ¬ inBox x y (u.bulletX.getD j 0) (u.bulletY.getD j 0)) :
    collideBullets idx x y u = u := by
  show (List.range MAX_PLAYER_BULLETS).foldl (collideStep idx x y) u = u
  generalize List.range MAX_PLAYER_BULLETS = js
  induction js with
  | nil => rfl
  | cons k t ih =>
    simp only [List.foldl_cons]
    rw [collideStep_id idx x y u k (h k)]
    exact ih

theorem alienStep_notdrawn (sp : SlotSpec) (c : ℤ) (s : GameState)
    (h : ¬ (s.enemyAlive.getD sp.idx 0) % 2 = 1) :
    alienStep sp (c, s) = Except.ok (c, alienLife sp.idx s) := by
  unfold alienStep
  dsimp only
  rw [if_neg h]

theorem alienStep_drawn_nofire (sp : SlotSpec) (c : ℤ) (s : GameState)
    (hdrawn : (s.enemyAlive.getD sp.idx 0) % 2 = 1) (hc0 : c ≠ 0)
    (hedge : ¬(ratTrunc (s.enemyX + sp.xOff) ≤ 0 ∨
        (SCREEN_WIDTH : ℤ) ≤ ratTrunc (s.enemyX + sp.xOff) + (ALIEN_WIDTH : ℤ)))
    (hground : ¬((SCREEN_HEIGHT : ℤ) ≤ ratTrunc (s.enemyY + sp.yOff) + (ALIEN_HEIGHT : ℤ))) :
    alienStep sp (c, s) = Except.ok (c - 1,
      alienLife sp.idx (collideBullets sp.idx
        (ratTrunc (s.enemyX + sp.xOff)) (ratTrunc (s.enemyY + sp.yOff)) s)) := by
  unfold alienStep
  dsimp only
  rw [if_pos hdrawn, if_neg hc0, if_neg hedge, if_neg hground]

theorem alienStep_drawn_fire (sp : SlotSpec) (s : GameState)
    (hdrawn : (s.enemyAlive.getD sp.idx 0) % 2 = 1)
    (hedge : ¬(ratTrunc (s.enemyX + sp.xOff) ≤ 0 ∨
        (SCREEN_WIDTH : ℤ) ≤ ratTrunc (s.enemyX + sp.xOff) + (ALIEN_WIDTH : ℤ)))
    (hground : ¬((SCREEN_HEIGHT : ℤ) ≤ ratTrunc (s.enemyY + sp.yOff) + (ALIEN_HEIGHT : ℤ))) :
    alienStep sp (0, s) = Except.ok (-1,
      alienLife sp.idx (collideBullets sp.idx
        (ratTrunc (s.enemyX + sp.xOff)) (ratTrunc (s.enemyY + sp.yOff))
        (fireFromAlien (ratTrunc (s.enemyX + sp.xOff)) (ratTrunc (s.enemyY + sp.yOff)) s))) := by
  unfold alienStep
  dsimp only
  rw [if_pos hdrawn, if_pos rfl, if_neg hedge, if_neg hground]
  norm_num

theorem drawnList_congr (specs : List SlotSpec) (a1 a2 : List ℕ)
    (h : ∀ sp ∈ specs, a1.getD sp.idx 0 = a2.getD sp.idx 0) :
    drawnList a1 specs = drawnList a2 specs := by
  unfold drawnList
  exact List.filter_congr (fun sp hsp => by rw [h sp hsp])

theorem drawnList_cons_pos (alive : List ℕ) (sp : SlotSpec) (rest : List SlotSpec)
    (h : (alive.getD sp.idx 0) % 2 = 1) :
    drawnList alive (sp :: rest) = sp :: drawnList alive rest := by
  unfold drawnList
  rw [List.filter_cons_of_pos (by simpa using h)]

theorem drawnList_cons_neg (alive : List ℕ) (sp : SlotSpec) (rest : List SlotSpec)
    (h : ¬ (alive.getD sp.idx 0) % 2 = 1) :
    drawnList alive (sp :: rest) = drawnList alive rest := by
  unfold drawnList
  rw [List.filter_cons_of_neg (by simpa using h)]


/-! At most one enemy bullet is written per sweep. -/

theorem alienLife_pool (idx : ℕ) (u : GameState) :
    (alienLife idx u).enemyBulletX = u.enemyBulletX ∧
    (alienLife idx u).enemyBulletY = u.enemyBulletY ∧
    (alienLife idx u).currEnemyBulletId = u.currEnemyBulletId := by
  obtain ⟨A, r, h⟩ := alienLife_frame idx u
  rw [h]
  exact ⟨rfl, rfl, rfl⟩

theorem resolve_pool (idx : ℕ) (x y : ℤ) (u : GameState) :
    (alienLife idx (collideBullets idx x y u)).enemyBulletX = u.enemyBulletX ∧
    (alienLife idx (collideBullets idx x y u)).enemyBulletY = u.enemyBulletY ∧
    (alienLife idx (collideBullets idx x y u)).currEnemyBulletId = u.currEnemyBulletId := by
  obtain ⟨A, B, C, h1⟩ := collideBullets_frame idx x y u
  obtain ⟨A2, r2, h2⟩ := alienLife_frame idx (collideBullets idx x y u)
  rw [h2, h1]
  exact ⟨rfl, rfl, rfl⟩

theorem alienStep_pool_nofire (sp : SlotSpec) (c : ℤ) (s : GameState) (hc0 : c ≠ 0) :
    ∀ c' s', alienStep sp (c, s) = Except.ok (c', s') →
      (s'.enemyBulletX = s.enemyBulletX ∧ s'.enemyBulletY = s.enemyBulletY ∧
       s'.currEnemyBulletId = s.currEnemyBulletId) ∧ (c' = c ∨ c' = c - 1) := by
  intro c' s' h
  unfold alienStep at h
  dsimp only at h
  by_cases hdrawn : (s.enemyAlive.getD sp.idx 0) % 2 = 1
  · rw [if_pos hdrawn, if_neg hc0] at h
    by_cases hground : (SCREEN_HEIGHT : ℤ) ≤ ratTrunc (s.enemyY + sp.yOff) + (ALIEN_HEIGHT : ℤ)
    · rw [if_pos hground] at h
      exact absurd h (by simp)
    · rw [if_neg hground] at h
      by_cases hedge : (ratTrunc (s.enemyX + sp.xOff) ≤ 0 ∨
          (SCREEN_WIDTH : ℤ) ≤ ratTrunc (s.enemyX + sp.xOff) + (ALIEN_WIDTH : ℤ)) <;>
        [rw [if_pos hedge] at h; rw [if_neg hedge] at h] <;>
        · simp only [Except.ok.injEq, Prod.mk.injEq] at h
          obtain ⟨hc', h2⟩ := h
          subst h2
          subst hc'
          exact ⟨resolve_pool sp.idx _ _ _, Or.inr rfl⟩
  · rw [if_neg hdrawn] at h
    simp only [Except.ok.injEq, Prod.mk.injEq] at h
    obtain ⟨hc', h2⟩ := h
    subst h2
    subst hc'
    exact ⟨alienLife_pool sp.idx s, Or.inl rfl⟩

theorem alienStep_pool_zero (sp : SlotSpec) (s : GameState) :
    ∀ c' s', alienStep sp (0, s) = Except.ok (c', s') →
      ((s.enemyAlive.getD sp.idx 0) % 2 = 1 ∧ c' = -1 ∧
        s'.enemyBulletX = s.enemyBulletX.set s.currEnemyBulletId
          (toByte (ratTrunc (s.enemyX + sp.xOff) + (ALIEN_WIDTH : ℤ) / 2)) ∧
        s'.enemyBulletY = s.enemyBulletY.set s.currEnemyBulletId
          (toByte (ratTrunc (s.enemyY + sp.yOff) + (ALIEN_HEIGHT : ℤ))) ∧
        s'.currEnemyBulletId = (s.currEnemyBulletId + 1) % MAX_ENEMY_BULLETS) ∨
      (¬ (s.enemyAlive.getD sp.idx 0) % 2 = 1 ∧ c' = 0 ∧
        s'.enemyBulletX = s.enemyBulletX ∧ s'.enemyBulletY = s.enemyBulletY ∧
        s'.currEnemyBulletId = s.currEnemyBulletId) := by
  intro c' s' h
  unfold alienStep at h
  dsimp only at h
  by_cases hdrawn : (s.enemyAlive.getD sp.idx 0) % 2 = 1
  · rw [if_pos hdrawn, if_pos rfl] at h
    by_cases hground : (SCREEN_HEIGHT : ℤ) ≤ ratTrunc (s.enemyY + sp.yOff) + (ALIEN_HEIGHT : ℤ)
    · rw [if_pos hground] at h
      exact absurd h (by simp)
    · rw [if_neg hground] at h
      by_cases hedge : (ratTrunc (s.enemyX + sp.xOff) ≤ 0 ∨
          (SCREEN_WIDTH : ℤ) ≤ ratTrunc (s.enemyX + sp.xOff) + (ALIEN_WIDTH : ℤ)) <;>
        [rw [if_pos hedge] at h; rw [if_neg hedge] at h] <;>
        · simp only [Except.ok.injEq, Prod.mk.injEq] at h
          obtain ⟨hc', h2⟩ := h
          subst h2
          refine Or.inl ⟨hdrawn, by omega, ?_, ?_, ?_⟩
          · exact (resolve_pool sp.idx _ _ _).1
          · exact (resolve_pool sp.idx _ _ _).2.1
          · exact (resolve_pool sp.idx _ _ _).2.2
  · rw [if_neg hdrawn] at h
    simp only [Except.ok.injEq, Prod.mk.injEq] at h
    obtain ⟨hc', h2⟩ := h
    subst h2
    obtain ⟨p1, p2, p3⟩ := alienLife_pool sp.idx s
    exact Or.inr ⟨hdrawn, hc'.symm, p1, p2, p3⟩

theorem sweep_pool_neg (specs : List SlotSpec) :
    ∀ (c : ℤ) (s : GameState), c < 0 →
      ∀ c' s', sweepAliens specs (c, s) = Except.ok (c', s') →
        (s'.enemyBulletX = s.enemyBulletX ∧ s'.enemyBulletY = s.enemyBulletY ∧
         s'.currEnemyBulletId = s.currEnemyBulletId) ∧ c' < 0 := by
  induction specs with
  | nil =>
    intro c s hc c' s' h
    simp only [sweepAliens, Except.ok.injEq, Prod.mk.injEq] at h
    obtain ⟨h1, h2⟩ := h
    subst h2
    exact ⟨⟨rfl, rfl, rfl⟩, h1 ▸ hc⟩
  | cons sp rest ih =>
    intro c s hc c' s' h
    simp only [sweepAliens] at h
    rcases hstep : alienStep sp (c, s) with t | q
    · rw [hstep] at h
      exact absurd h (by simp)
    · rw [hstep] at h
      obtain ⟨c1, s1⟩ := q
      obtain ⟨⟨e1, e2, e3⟩, hc1⟩ := alienStep_pool_nofire sp c s (by omega) c1 s1 hstep
      have hc1neg : c1 < 0 := by omega
      obtain ⟨⟨f1, f2, f3⟩, hcf⟩ := ih c1 s1 hc1neg c' s' h
      exact ⟨⟨f1.trans e1, f2.trans e2, f3.trans e3⟩, hcf⟩

theorem sweep_pool_writes (specs : List SlotSpec) :
    ∀ (c : ℤ) (s : GameState), 0 ≤ c →
      ∀ c' s', sweepAliens specs (c, s) = Except.ok (c', s') →
        (s'.enemyBulletX = s.enemyBulletX ∧ s'.enemyBulletY = s.enemyBulletY ∧
         s'.currEnemyBulletId = s.currEnemyBulletId) ∨
        (∃ v w, s'.enemyBulletX = s.enemyBulletX.set s.currEnemyBulletId v ∧
                s'.enemyBulletY = s.enemyBulletY.set s.currEnemyBulletId w ∧
                s'.currEnemyBulletId = (s.currEnemyBulletId + 1) % MAX_ENEMY_BULLETS) := by
  induction specs with
  | nil =>
    intro c s hc c' s' h
    simp only [sweepAliens, Except.ok.injEq, Prod.mk.injEq] at h
    obtain ⟨-, h2⟩ := h
    subst h2
    exact Or.inl ⟨rfl, rfl, rfl⟩
  | cons sp rest ih =>
    intro c s hc c' s' h
    simp only [sweepAliens] at h
    rcases hstep : alienStep sp (c, s) with t | q
    · rw [hstep] at h
      exact absurd h (by simp)
    · rw [hstep] at h
      obtain ⟨c1, s1⟩ := q
      by_cases hc0 : c = 0
      · subst hc0
        rcases alienStep_pool_zero sp s c1 s1 hstep with
          ⟨-, hc1, hx, hy, hcur⟩ | ⟨-, hc1, hx, hy, hcur⟩
        · subst hc1
          obtain ⟨⟨f1, f2, f3⟩, -⟩ := sweep_pool_neg rest (-1) s1 (by omega) c' s' h
          exact Or.inr ⟨_, _, f1.trans hx, f2.trans hy, f3.trans hcur⟩
        · subst hc1
          rcases ih 0 s1 (le_refl 0) c' s' h with ⟨f1, f2, f3⟩ | ⟨v, w, f1, f2, f3⟩
          · exact Or.inl ⟨f1.trans hx, f2.trans hy, f3.trans hcur⟩
          · rw [hx, hcur] at f1
            rw [hy, hcur] at f2
            rw [hcur] at f3
            exact Or.inr ⟨v, w, f1, f2, f3⟩
      · obtain ⟨⟨e1, e2, e3⟩, hc1⟩ := alienStep_pool_nofire sp c s hc0 c1 s1 hstep
        have hc1pos : 0 ≤ c1 := by omega
        rcases ih c1 s1 hc1pos c' s' h with ⟨f1, f2, f3⟩ | ⟨v, w, f1, f2, f3⟩
        · exact Or.inl ⟨f1.trans e1, f2.trans e2, f3.trans e3⟩
        · rw [e1, e3] at f1
          rw [e2, e3] at f2
          rw [e3] at f3
          exact Or.inr ⟨v, w, f1, f2, f3⟩


/-! Which alien fires: the counter is decremented once per drawn slot. -/

theorem alienLife_fields (idx : ℕ) (s : GameState) :
    (alienLife idx s).enemyX = s.enemyX ∧ (alienLife idx s).enemyY = s.enemyY ∧
    (alienLife idx s).bulletX = s.bulletX := by
  obtain ⟨A, r, h⟩ := alienLife_frame idx s
  rw [h]
  exact ⟨rfl, rfl, rfl⟩

theorem sweep_select (specs : List SlotSpec) :
    ∀ (c : ℤ) (s : GameState),
      (∀ sp ∈ specs,
        ¬(ratTrunc (s.enemyX + sp.xOff) ≤ 0 ∨
          (SCREEN_WIDTH : ℤ) ≤ ratTrunc (s.enemyX + sp.xOff) + (ALIEN_WIDTH : ℤ)) ∧
        ¬((SCREEN_HEIGHT : ℤ) ≤ ratTrunc (s.enemyY + sp.yOff) + (ALIEN_HEIGHT : ℤ))) →
      List.Pairwise (fun a b => a.idx ≠ b.idx) specs →
      s.bulletX = List.replicate MAX_PLAYER_BULLETS 0 →
      ∃ s', sweepAliens specs (c, s) =
          Except.ok (c - ((drawnList s.enemyAlive specs).length : ℤ), s') ∧
        (0 ≤ c → c < ((drawnList s.enemyAlive specs).length : ℤ) →
          s'.enemyBulletX = s.enemyBulletX.set s.currEnemyBulletId
            (toByte (ratTrunc (s.enemyX +
              ((drawnList s.enemyAlive specs).getD c.toNat ⟨0, 0, 0⟩).xOff) +
              (ALIEN_WIDTH : ℤ) / 2)) ∧
          s'.enemyBulletY = s.enemyBulletY.set s.currEnemyBulletId
            (toByte (ratTrunc (s.enemyY +
              ((drawnList s.enemyAlive specs).getD c.toNat ⟨0, 0, 0⟩).yOff) +
              (ALIEN_HEIGHT : ℤ))) ∧
          s'.currEnemyBulletId = (s.currEnemyBulletId + 1) % MAX_ENEMY_BULLETS) ∧
        (¬(0 ≤ c ∧ c < ((drawnList s.enemyAlive specs).length : ℤ)) →
          s'.enemyBulletX = s.enemyBulletX ∧ s'.enemyBulletY = s.enemyBulletY ∧
          s'.currEnemyBulletId = s.currEnemyBulletId) := by
  induction specs with
  | nil =>
    intro c s _ _ _
    refine ⟨s, ?_, ?_, ?_⟩
    · simp [sweepAliens, drawnList]
    · intro h0 hlt
      simp [drawnList] at hlt
      omega
    · intro _
      exact ⟨rfl, rfl, rfl⟩
  | cons sp rest ih =>
    intro c s hgeom hpair hbul
    obtain ⟨hedge, hground⟩ := hgeom sp (List.mem_cons_self sp rest)
    have hgeom' : ∀ q ∈ rest,
        ¬(ratTrunc (s.enemyX + q.xOff) ≤ 0 ∨
          (SCREEN_WIDTH : ℤ) ≤ ratTrunc (s.enemyX + q.xOff) + (ALIEN_WIDTH : ℤ)) ∧
        ¬((SCREEN_HEIGHT : ℤ) ≤ ratTrunc (s.enemyY + q.yOff) + (ALIEN_HEIGHT : ℤ)) :=
      fun q hq => hgeom q (List.mem_cons_of_mem sp hq)
    have hpair' := (List.pairwise_cons.mp hpair).2
    have hne : ∀ q ∈ rest, sp.idx ≠ q.idx := (List.pairwise_cons.mp hpair).1
    have hx0 : ¬ ratTrunc (s.enemyX + sp.xOff) ≤ 0 := fun h => hedge (Or.inl h)
    have hnobox : ∀ j, ¬ inBox (ratTrunc (s.enemyX + sp.xOff)) (ratTrunc (s.enemyY + sp.yOff))
        (s.bulletX.getD j 0) (s.bulletY.getD j 0) := by
      intro j hbox
      rw [hbul, getD_replicate] at hbox
      exact hx0 (by exact_mod_cast hbox.1)
    by_cases hdrawn : (s.enemyAlive.getD sp.idx 0) % 2 = 1
    · rw [drawnList_cons_pos s.enemyAlive sp rest hdrawn]
      by_cases hc0 : c = 0
      · subst hc0
        have hstep1 := alienStep_drawn_fire sp s hdrawn hedge hground
        rw [collideBullets_id sp.idx (ratTrunc (s.enemyX + sp.xOff))
          (ratTrunc (s.enemyY + sp.yOff))
          (fireFromAlien (ratTrunc (s.enemyX + sp.xOff)) (ratTrunc (s.enemyY + sp.yOff)) s)
          (fun j => hnobox j)] at hstep1
        obtain ⟨hX1, hY1, hB1⟩ := alienLife_fields sp.idx
          (fireFromAlien (ratTrunc (s.enemyX + sp.xOff)) (ratTrunc (s.enemyY + sp.yOff)) s)
        obtain ⟨p1, p2, p3⟩ := alienLife_pool sp.idx
          (fireFromAlien (ratTrunc (s.enemyX + sp.xOff)) (ratTrunc (s.enemyY + sp.yOff)) s)
        have halive1 : ∀ q ∈ rest,
            (alienLife sp.idx (fireFromAlien (ratTrunc (s.enemyX + sp.xOff))
              (ratTrunc (s.enemyY + sp.yOff)) s)).enemyAlive.getD q.idx 0 =
            s.enemyAlive.getD q.idx 0 :=
          fun q hq => alienLife_alive_ne sp.idx _ q.idx (hne q hq)
        have hdl := drawnList_congr rest _ _ halive1
        have hgeom1 : ∀ q ∈ rest,
            ¬(ratTrunc ((alienLife sp.idx (fireFromAlien (ratTrunc (s.enemyX + sp.xOff))
                (ratTrunc (s.enemyY + sp.yOff)) s)).enemyX + q.xOff) ≤ 0 ∨
              (SCREEN_WIDTH : ℤ) ≤ ratTrunc ((alienLife sp.idx (fireFromAlien
                (ratTrunc (s.enemyX + sp.xOff)) (ratTrunc (s.enemyY + sp.yOff)) s)).enemyX +
                q.xOff) + (ALIEN_WIDTH : ℤ)) ∧
            ¬((SCREEN_HEIGHT : ℤ) ≤ ratTrunc ((alienLife sp.idx (fireFromAlien
                (ratTrunc (s.enemyX + sp.xOff)) (ratTrunc (s.enemyY + sp.yOff)) s)).enemyY +
                q.yOff) + (ALIEN_HEIGHT : ℤ)) := by
          intro q hq
          rw [hX1, hY1]
          exact hgeom' q hq
        obtain ⟨s', hsw, hfireIH, hnofIH⟩ := ih (-1)
          (alienLife sp.idx (fireFromAlien (ratTrunc (s.enemyX + sp.xOff))
            (ratTrunc (s.enemyY + sp.yOff)) s))
          hgeom1 hpair' (hB1.trans hbul)
        rw [hdl] at hsw
        have hpool := hnofIH (by intro hcon; exact absurd hcon.1 (by norm_num))
        refine ⟨s', ?_, ?_, ?_⟩
        · have step : sweepAliens (sp :: rest) (0, s) =
              sweepAliens rest (-1, alienLife sp.idx (fireFromAlien
                (ratTrunc (s.enemyX + sp.xOff)) (ratTrunc (s.enemyY + sp.yOff)) s)) := by
            simp only [sweepAliens]
            rw [hstep1]
          rw [step]
          have hc : (0 : ℤ) - (((sp :: drawnList s.enemyAlive rest).length : ℕ) : ℤ) =
              -1 - ((drawnList s.enemyAlive rest).length : ℤ) := by
            push_cast [List.length_cons]
            ring
          rw [hc]
          exact hsw
        · intro h0 hlt
          simp only [Int.toNat_zero, List.getD_cons_zero]
          exact ⟨hpool.1.trans p1, hpool.2.1.trans p2, hpool.2.2.trans p3⟩
        · intro hcon
          refine absurd ⟨le_refl 0, ?_⟩ hcon
          rw [List.length_cons]
          push_cast
          positivity
      · have hstep1 := alienStep_drawn_nofire sp c s hdrawn hc0 hedge hground
        rw [collideBullets_id sp.idx (ratTrunc (s.enemyX + sp.xOff))
          (ratTrunc (s.enemyY + sp.yOff)) s hnobox] at hstep1
        obtain ⟨hX1, hY1, hB1⟩ := alienLife_fields sp.idx s
        obtain ⟨p1, p2, p3⟩ := alienLife_pool sp.idx s
        have halive1 : ∀ q ∈ rest,
            (alienLife sp.idx s).enemyAlive.getD q.idx 0 = s.enemyAlive.getD q.idx 0 :=
          fun q hq => alienLife_alive_ne sp.idx s q.idx (hne q hq)
        have hdl := drawnList_congr rest _ _ halive1
        have hgeom1 : ∀ q ∈ rest,
            ¬(ratTrunc ((alienLife sp.idx s).enemyX + q.xOff) ≤ 0 ∨
              (SCREEN_WIDTH : ℤ) ≤ ratTrunc ((alienLife sp.idx s).enemyX + q.xOff) +
                (ALIEN_WIDTH : ℤ)) ∧
            ¬((SCREEN_HEIGHT : ℤ) ≤ ratTrunc ((alienLife sp.idx s).enemyY + q.yOff) +
                (ALIEN_HEIGHT : ℤ)) := by
          intro q hq
          rw [hX1, hY1]
          exact hgeom' q hq
        obtain ⟨s', hsw, hfireIH, hnofIH⟩ := ih (c - 1) (alienLife sp.idx s)
          hgeom1 hpair' (hB1.trans hbul)
        rw [hdl] at hsw hfireIH hnofIH
        rw [hX1, hY1, p1, p2, p3] at hfireIH
        rw [p1, p2, p3] at hnofIH
        refine ⟨s', ?_, ?_, ?_⟩
        · have step : sweepAliens (sp :: rest) (c, s) =
              sweepAliens rest (c - 1, alienLife sp.idx s) := by
            simp only [sweepAliens]
            rw [hstep1]
          rw [step]
          have hc : c - (((sp :: drawnList s.enemyAlive rest).length : ℕ) : ℤ) =
              (c - 1) - ((drawnList s.enemyAlive rest).length : ℤ) := by
            push_cast [List.length_cons]
            ring
          rw [hc]
          exact hsw
        · intro h0 hlt
          have hlt' : c < ((drawnList s.enemyAlive rest).length : ℤ) + 1 := by
            rw [List.length_cons] at hlt
            push_cast at hlt
            exact hlt
          have htn : c.toNat = (c - 1).toNat + 1 := by omega
          rw [htn, List.getD_cons_succ]
          exact hfireIH (by omega) (by omega)
        · intro hcon
          refine hnofIH ?_
          intro hab
          obtain ⟨a, b⟩ := hab
          refine hcon ⟨by omega, ?_⟩
          rw [List.length_cons]
          push_cast
          omega
    · rw [drawnList_cons_neg s.enemyAlive sp rest hdrawn]
      have hstep1 := alienStep_notdrawn sp c s hdrawn
      obtain ⟨hX1, hY1, hB1⟩ := alienLife_fields sp.idx s
      obtain ⟨p1, p2, p3⟩ := alienLife_pool sp.idx s
      have halive1 : ∀ q ∈ rest,
          (alienLife sp.idx s).enemyAlive.getD q.idx 0 = s.enemyAlive.getD q.idx 0 :=
        fun q hq => alienLife_alive_ne sp.idx s q.idx (hne q hq)
      have hdl := drawnList_congr rest _ _ halive1
      have hgeom1 : ∀ q ∈ rest,
          ¬(ratTrunc ((alienLife sp.idx s).enemyX + q.xOff) ≤ 0 ∨
            (SCREEN_WIDTH : ℤ) ≤ ratTrunc ((alienLife sp.idx s).enemyX + q.xOff) +
              (ALIEN_WIDTH : ℤ)) ∧
          ¬((SCREEN_HEIGHT : ℤ) ≤ ratTrunc ((alienLife sp.idx s).enemyY + q.yOff) +
              (ALIEN_HEIGHT : ℤ)) := by
        intro q hq
        rw [hX1, hY1]
        exact hgeom' q hq
      obtain ⟨s', hsw, hfireIH, hnofIH⟩ := ih c (alienLife sp.idx s)
        hgeom1 hpair' (hB1.trans hbul)
      rw [hdl] at hsw hfireIH hnofIH
      rw [hX1, hY1, p1, p2, p3] at hfireIH
      rw [p1, p2, p3] at hnofIH
      refine ⟨s', ?_, hfireIH, hnofIH⟩
      have step : sweepAliens (sp :: rest) (c, s) =
          sweepAliens rest (c, alienLife sp.idx s) := by
        simp only [sweepAliens]
        rw [hstep1]
      rw [step]
      exact hsw


/-! Helpers composing the stages of one tick. -/

theorem sweep_alive_len (specs : List SlotSpec) :
    ∀ (c : ℤ) (s : GameState) (c' : ℤ) (s' : GameState),
      sweepAliens specs (c, s) = Except.ok (c', s') →
      s'.enemyAlive.length = s.enemyAlive.length := by
  induction specs with
  | nil =>
    intro c s c' s' h
    simp only [sweepAliens, Except.ok.injEq, Prod.mk.injEq] at h
    obtain ⟨-, h2⟩ := h
    subst h2
    rfl
  | cons sp rest ih =>
    intro c s c' s' h
    simp only [sweepAliens] at h
    rcases hstep : alienStep sp (c, s) with t | q
    · rw [hstep] at h
      exact absurd h (by simp)
    · rw [hstep] at h
      obtain ⟨c1, s1⟩ := q
      exact (ih c1 s1 c' s' h).trans (alienStep_alive_len sp c s c1 s1 hstep)

theorem sweep_alive_mem (specs : List SlotSpec) :
    ∀ (c : ℤ) (s : GameState) (sp0 : SlotSpec),
      List.Pairwise (fun a b => a.idx ≠ b.idx) specs → sp0 ∈ specs →
      sp0.idx < s.enemyAlive.length →
      0 < s.enemyAlive.getD sp0.idx 0 → s.enemyAlive.getD sp0.idx 0 < ALIVE →
      ∀ c' s', sweepAliens specs (c, s) = Except.ok (c', s') →
        s'.enemyAlive.getD sp0.idx 0 = s.enemyAlive.getD sp0.idx 0 - 1 ∨
        s'.enemyAlive.getD sp0.idx 0 = ALIVE - 2 := by
  induction specs with
  | nil =>
    intro c s sp0 _ hmem
    exact absurd hmem (List.not_mem_nil sp0)
  | cons sp rest ih =>
    intro c s sp0 hpair hmem hlen h0 h7 c' s' h
    simp only [sweepAliens] at h
    rcases hstep : alienStep sp (c, s) with t | q
    · rw [hstep] at h
      exact absurd h (by simp)
    · rw [hstep] at h
      obtain ⟨c1, s1⟩ := q
      rcases List.mem_cons.mp hmem with heq | hmem'
      · subst heq
        have hd := alienStep_alive_self sp0 c s hlen h0 h7 c1 s1 hstep
        have hrest : ∀ q' ∈ rest, q'.idx ≠ sp0.idx := by
          intro q' hq'
          exact Ne.symm ((List.pairwise_cons.mp hpair).1 q' hq')
        have hkeep := sweep_alive_ne rest c1 s1 sp0.idx hrest c' s' h
        rw [hkeep]
        exact hd
      · have hne0 : sp.idx ≠ sp0.idx := (List.pairwise_cons.mp hpair).1 sp0 hmem'
        have hpres := alienStep_alive_ne sp c s sp0.idx hne0 c1 s1 hstep
        have hlen1 : sp0.idx < s1.enemyAlive.length := by
          rw [alienStep_alive_len sp c s c1 s1 hstep]
          exact hlen
        have h01 : 0 < s1.enemyAlive.getD sp0.idx 0 := by
          rw [hpres]
          exact h0
        have h71 : s1.enemyAlive.getD sp0.idx 0 < ALIVE := by
          rw [hpres]
          exact h7
        have hres := ih c1 s1 sp0 (List.pairwise_cons.mp hpair).2 hmem' hlen1 h01 h71 c' s' h
        rw [hpres] at hres
        exact hres

theorem rowSpecs_pairwise : List.Pairwise (fun a b => a.idx ≠ b.idx) rowSpecs :=
  of_decide_eq_true (by with_unfolding_all rfl)

theorem preStage_frame (inp : Input) (s : GameState) :
    ∃ x bX bY cb w, playerFire inp (shipMove inp s) =
      { s with shipX := x, bulletX := bX, bulletY := bY, currBulletId := cb, bulletWait := w } := by
  obtain ⟨x, hx⟩ := shipMove_frame inp s
  obtain ⟨bX, bY, cb, w, hp⟩ := playerFire_frame inp { s with shipX := x }
  exact ⟨x, bX, bY, cb, w, by rw [hx, hp]⟩

theorem shipLife_shipAlive (u : GameState) (h0 : 0 < u.shipAlive) (h7 : u.shipAlive < ALIVE) :
    ∀ v, shipLife u = Except.ok v →
      (u.shipAlive - 1 ≠ 0 ∧ v.shipAlive = u.shipAlive - 1) ∨
      (u.shipAlive - 1 = 0 ∧ v.shipAlive = ALIVE) := by
  intro v h
  unfold shipLife at h
  dsimp only at h
  rw [if_pos (⟨h0, h7⟩ : 0 < u.shipAlive ∧ u.shipAlive < ALIVE)] at h
  dsimp only at h
  by_cases hz : u.shipAlive - 1 = 0
  · rw [if_pos hz] at h
    by_cases hl : 1 < u.lives
    · rw [if_pos hl] at h
      simp only [Except.ok.injEq] at h
      subst h
      exact Or.inr ⟨hz, rfl⟩
    · rw [if_neg hl] at h
      exact absurd h (by simp)
  · rw [if_neg hz] at h
    simp only [Except.ok.injEq] at h
    subst h
    exact Or.inl ⟨hz, rfl⟩

theorem gameLoop_decomp (inp : Input) (s : GameState) :
    gameLoop inp s = gameReset ∨
    ∃ s1 c2 s2,
      shipLife (playerFire inp (shipMove inp s)) = Except.ok s1 ∧
      checkWin s1 = Except.ok s1 ∧
      sweepAliens rowSpecs (enemyCooldown inp s1) = Except.ok (c2, s2) ∧
      gameLoop inp s = advanceEnemyBullets (advancePlayerBullets
        { s2 with enemyX := s2.enemyX + s2.enemyDX }) := by
  rcases hsl : shipLife (playerFire inp (shipMove inp s)) with t | s1
  · left
    have ht := shipLife_error _ t hsl
    subst ht
    simp only [gameLoop, gameLoopAux, hsl]
  · rcases hcw : checkWin s1 with t | s2
    · left
      have ht := checkWin_error _ t hcw
      subst ht
      simp only [gameLoop, gameLoopAux, hsl, hcw]
    · have hs2 : s2 = s1 := checkWin_ok _ _ hcw
      subst hs2
      rcases hsw : sweepAliens rowSpecs (enemyCooldown inp s2) with t | q
      · left
        have ht := sweep_error rowSpecs (enemyCooldown inp s2).1 (enemyCooldown inp s2).2 t hsw
        subst ht
        simp only [gameLoop, gameLoopAux, hsl, hcw, hsw]
      · right
        obtain ⟨c2, s3⟩ := q
        refine ⟨s2, c2, s3, rfl, hcw, hsw, ?_⟩
        simp only [gameLoop, gameLoopAux, hsl, hcw, hsw]


/-! Claim theorems. -/

/-- Claim C1 (amended): when an alien is checked against the player-bullet
pool, the alien enters the dying state as soon as some pool bullet lies in
its box, EVERY matching bullet slot is reset to the sentinel (0,0) — not
only the first matching one — and every non-matching slot is left
unchanged. -/
theorem C1_collision_consumes_every_matching_bullet (idx : ℕ) (x y : ℤ) (s : GameState)
    (j : ℕ) (hj : j < MAX_PLAYER_BULLETS)
    (hlX : j < s.bulletX.length) (hlY : j < s.bulletY.length) :
    ((collideBullets idx x y s).enemyAlive =
      if ∃ k, k < MAX_PLAYER_BULLETS ∧ inBox x y (s.bulletX.getD k 0) (s.bulletY.getD k 0)
      then s.enemyAlive.set idx START_DYING else s.enemyAlive) ∧
    ((collideBullets idx x y s).bulletX.getD j 0 =
      if inBox x y (s.bulletX.getD j 0) (s.bulletY.getD j 0) then 0 else s.bulletX.getD j 0) ∧
    ((collideBullets idx x y s).bulletY.getD j 0 =
      if inBox x y (s.bulletX.getD j 0) (s.bulletY.getD j 0) then 0 else s.bulletY.getD j 0) := by
  obtain ⟨hX, hY⟩ := foldCollide_slot idx x y MAX_PLAYER_BULLETS j hj s hlX hlY
  exact ⟨foldCollide_alive idx x y MAX_PLAYER_BULLETS s, hX, hY⟩

/-- Witness for Claim C1 at the two-bullet state, slot 1. -/
theorem C1_collision_witness :
    1 < MAX_PLAYER_BULLETS ∧ 1 < hitTwoState.bulletX.length ∧ 1 < hitTwoState.bulletY.length ∧
    (((collideBullets 0 10 0 hitTwoState).enemyAlive =
      if ∃ k, k < MAX_PLAYER_BULLETS ∧
          inBox 10 0 (hitTwoState.bulletX.getD k 0) (hitTwoState.bulletY.getD k 0)
      then hitTwoState.enemyAlive.set 0 START_DYING else hitTwoState.enemyAlive) ∧
     ((collideBullets 0 10 0 hitTwoState).bulletX.getD 1 0 =
      if inBox 10 0 (hitTwoState.bulletX.getD 1 0) (hitTwoState.bulletY.getD 1 0) then 0
      else hitTwoState.bulletX.getD 1 0) ∧
     ((collideBullets 0 10 0 hitTwoState).bulletY.getD 1 0 =
      if inBox 10 0 (hitTwoState.bulletX.getD 1 0) (hitTwoState.bulletY.getD 1 0) then 0
      else hitTwoState.bulletY.getD 1 0)) :=
  ⟨by decide, by decide, by decide,
   C1_collision_consumes_every_matching_bullet 0 10 0 hitTwoState 1
     (by decide) (by decide) (by decide)⟩

/-- Counterexample to Claim C1 as stated: in hitTwoState both pool slots 0
and 1 match the box of the alien drawn at (10, 0), and the collision scan
zeroes BOTH of them, although the spec says only the first matching slot
is consumed and every other slot is left unchanged. -/
theorem C1_collision_counterexample :
    inBox 10 0 (hitTwoState.bulletX.getD 0 0) (hitTwoState.bulletY.getD 0 0) ∧
    inBox 10 0 (hitTwoState.bulletX.getD 1 0) (hitTwoState.bulletY.getD 1 0) ∧
    (collideBullets 0 10 0 hitTwoState).bulletX.getD 0 0 = 0 ∧
    (collideBullets 0 10 0 hitTwoState).bulletX.getD 1 0 = 0 ∧
    hitTwoState.bulletX.getD 1 0 ≠ 0 :=
  of_decide_eq_true (by with_unfolding_all rfl)

/-- Claim C2: in every reachable state (reset followed by any number of
ticks with any inputs) the remaining-enemies counter equals the number of
alien slots with strictly positive vitality. -/
theorem C2_remaining_counts_alive :
    ∀ s, Reachable s → s.enemyRemaining = countAlive s.enemyAlive :=
  fun s h => (good_reachable s h).2.1

/-- Witness for Claim C2 at the reset state. -/
theorem C2_remaining_counts_alive_witness :
    Reachable gameReset ∧ gameReset.enemyRemaining = countAlive gameReset.enemyAlive :=
  ⟨Reachable.reset, C2_remaining_counts_alive gameReset Reachable.reset⟩

/-- Claim C9: the reset state places the ship at x = 60, and in every
reachable state the ship x position stays within the playfield bound
SCREEN_WIDTH - SHIP_WIDTH = 120 (so the uint8_t moves never wrap). -/
theorem C9_ship_within_playfield :
    gameReset.shipX = 60 ∧ SCREEN_WIDTH - SHIP_WIDTH = 120 ∧
    ∀ s, Reachable s → s.shipX ≤ SCREEN_WIDTH - SHIP_WIDTH :=
  ⟨rfl, rfl, fun s h => (good_reachable s h).2.2.2⟩

/-- Witness for Claim C9 at the reset state. -/
theorem C9_ship_within_playfield_witness :
    Reachable gameReset ∧ gameReset.shipX ≤ SCREEN_WIDTH - SHIP_WIDTH :=
  ⟨Reachable.reset, C9_ship_within_playfield.2.2 gameReset Reachable.reset⟩


/-- Claim C3 (amended): over one tick, an alien whose vitality lies in
(0, ALIVE) either decrements by one or — when a player bullet re-hits the
drawn dying alien — is set back to START_DYING and then decremented, i.e.
to ALIVE - 2 = 5, unless the tick ends in a gameOver reset; the ship's
vitality in (0, ALIVE) decrements by one, or, when it reaches 0, the
life-loss transition returns it to ALIVE (from where an enemy bullet hit
in the same tick may take it to START_DYING), unless the tick resets. -/
theorem C3_vitality_step (inp : Input) (s : GameState) :
    (∀ sp ∈ rowSpecs, sp.idx < s.enemyAlive.length →
      0 < s.enemyAlive.getD sp.idx 0 → s.enemyAlive.getD sp.idx 0 < ALIVE →
      (gameLoop inp s).enemyAlive.getD sp.idx 0 = s.enemyAlive.getD sp.idx 0 - 1 ∨
      (gameLoop inp s).enemyAlive.getD sp.idx 0 = ALIVE - 2 ∨
      gameLoop inp s = gameReset) ∧
    (0 < s.shipAlive → s.shipAlive < ALIVE →
      (s.shipAlive - 1 ≠ 0 ∧ (gameLoop inp s).shipAlive = s.shipAlive - 1) ∨
      (s.shipAlive - 1 = 0 ∧
        ((gameLoop inp s).shipAlive = ALIVE ∨ (gameLoop inp s).shipAlive = START_DYING)) ∨
      gameLoop inp s = gameReset) := by
  rcases gameLoop_decomp inp s with hreset | ⟨s1, c2, s2, hsl, hcw, hsw, hgl⟩
  · constructor
    · intro sp _ _ _ _
      exact Or.inr (Or.inr hreset)
    · intro _ _
      exact Or.inr (Or.inr hreset)
  · obtain ⟨x, bX, bY, cb, w, hpre⟩ := preStage_frame inp s
    have hs1alive : s1.enemyAlive = s.enemyAlive := by
      rcases shipLife_frame (playerFire inp (shipMove inp s)) with herr | ⟨l, a, w2, ew, hok⟩
      · rw [herr] at hsl
        exact absurd hsl (by simp)
      · rw [hok] at hsl
        simp only [Except.ok.injEq] at hsl
        rw [← hsl, hpre]
    have hs1ship : s1.shipAlive = s.shipAlive ∨
        (s.shipAlive - 1 ≠ 0 ∧ s1.shipAlive = s.shipAlive - 1) ∨
        (s.shipAlive - 1 = 0 ∧ s1.shipAlive = ALIVE) ∨ ¬ (0 < s.shipAlive ∧ s.shipAlive < ALIVE) := by
      by_cases hs : 0 < s.shipAlive ∧ s.shipAlive < ALIVE
      · have h0p : 0 < (playerFire inp (shipMove inp s)).shipAlive := by
          rw [hpre]
          exact hs.1
        have h7p : (playerFire inp (shipMove inp s)).shipAlive < ALIVE := by
          rw [hpre]
          exact hs.2
        rcases shipLife_shipAlive (playerFire inp (shipMove inp s)) h0p h7p s1 hsl with
          ⟨hnz, hdec⟩ | ⟨hz, hA⟩
        · right
          left
          rw [hpre] at hnz hdec
          exact ⟨hnz, hdec⟩
        · right
          right
          left
          rw [hpre] at hz
          exact ⟨hz, hA⟩
      · exact Or.inr (Or.inr (Or.inr hs))
    obtain ⟨w3, hcd⟩ := enemyCooldown_frame inp s1
    have htalive : (enemyCooldown inp s1).2.enemyAlive = s.enemyAlive := by
      rw [hcd]
      exact hs1alive
    obtain ⟨pX, pY, hadvP⟩ :=
      advancePlayerBullets_frame { s2 with enemyX := s2.enemyX + s2.enemyDX }
    have hglalive : (gameLoop inp s).enemyAlive = s2.enemyAlive := by
      obtain ⟨a2, eX2, eY2, hadvE⟩ :=
        advanceEnemyBullets_frame (advancePlayerBullets { s2 with enemyX := s2.enemyX + s2.enemyDX })
      rw [hgl, hadvE, hadvP]
    constructor
    · intro sp hmem hlen h0 h7
      have hidx : sp.idx < (enemyCooldown inp s1).2.enemyAlive.length := by
        rw [htalive]
        exact hlen
      have h0t : 0 < (enemyCooldown inp s1).2.enemyAlive.getD sp.idx 0 := by
        rw [htalive]
        exact h0
      have h7t : (enemyCooldown inp s1).2.enemyAlive.getD sp.idx 0 < ALIVE := by
        rw [htalive]
        exact h7
      have hres := sweep_alive_mem rowSpecs (enemyCooldown inp s1).1 (enemyCooldown inp s1).2
        sp rowSpecs_pairwise hmem hidx h0t h7t c2 s2 hsw
      rw [htalive] at hres
      rw [hglalive]
      rcases hres with h | h
      · exact Or.inl h
      · exact Or.inr (Or.inl h)
    · intro h0 h7
      have hkA := sweep_keepA rowSpecs (enemyCooldown inp s1).1 (enemyCooldown inp s1).2 c2 s2 hsw
      have hs2ship : s2.shipAlive = s1.shipAlive := by
        have hh := hkA.2.1
        rw [hh, hcd]
      have hpship : (advancePlayerBullets { s2 with enemyX := s2.enemyX + s2.enemyDX }).shipAlive
          = s2.shipAlive := by
        rw [hadvP]
      rcases hs1ship with hsame | ⟨hnz, hdec⟩ | ⟨hz, hA⟩ | habs
      · exfalso
        rcases shipLife_shipAlive (playerFire inp (shipMove inp s))
            (by rw [hpre]; exact h0) (by rw [hpre]; exact h7) s1 hsl with ⟨-, hdec⟩ | ⟨hz, hA⟩
        · have hdec2 : s1.shipAlive = s.shipAlive - 1 := by
            rw [hpre] at hdec
            exact hdec
          rw [hsame] at hdec2
          omega
        · rw [hsame] at hA
          omega
      · rcases advanceEnemyBullets_shipAlive
            (advancePlayerBullets { s2 with enemyX := s2.enemyX + s2.enemyDX }) with hfin | ⟨hcur7, hfin6⟩
        · left
          refine ⟨hnz, ?_⟩
          rw [hgl, hfin, hpship, hs2ship, hdec]
        · exfalso
          rw [hpship, hs2ship, hdec] at hcur7
          have hA7 : ALIVE = 7 := rfl
          omega
      · rcases advanceEnemyBullets_shipAlive
            (advancePlayerBullets { s2 with enemyX := s2.enemyX + s2.enemyDX }) with hfin | ⟨hcur7, hfin6⟩
        · right
          left
          refine ⟨hz, Or.inl ?_⟩
          rw [hgl, hfin, hpship, hs2ship, hA]
        · right
          left
          refine ⟨hz, Or.inr ?_⟩
          rw [hgl]
          exact hfin6
      · exact absurd ⟨h0, h7⟩ habs

/-- Witness for Claim C3 at a state whose alien 0 and ship both have
vitality 3. -/
theorem C3_vitality_step_witness :
    (⟨0, 0, 0⟩ : SlotSpec) ∈ rowSpecs ∧
    (⟨0, 0, 0⟩ : SlotSpec).idx < c3State.enemyAlive.length ∧
    0 < c3State.enemyAlive.getD (⟨0, 0, 0⟩ : SlotSpec).idx 0 ∧
    c3State.enemyAlive.getD (⟨0, 0, 0⟩ : SlotSpec).idx 0 < ALIVE ∧
    0 < c3State.shipAlive ∧ c3State.shipAlive < ALIVE ∧
    ((gameLoop noInput c3State).enemyAlive.getD (⟨0, 0, 0⟩ : SlotSpec).idx 0 =
        c3State.enemyAlive.getD (⟨0, 0, 0⟩ : SlotSpec).idx 0 - 1 ∨
      (gameLoop noInput c3State).enemyAlive.getD (⟨0, 0, 0⟩ : SlotSpec).idx 0 = ALIVE - 2 ∨
      gameLoop noInput c3State = gameReset) ∧
    ((c3State.shipAlive - 1 ≠ 0 ∧ (gameLoop noInput c3State).shipAlive = c3State.shipAlive - 1) ∨
      (c3State.shipAlive - 1 = 0 ∧
        ((gameLoop noInput c3State).shipAlive = ALIVE ∨
         (gameLoop noInput c3State).shipAlive = START_DYING)) ∨
      gameLoop noInput c3State = gameReset) := by
  have hmem : (⟨0, 0, 0⟩ : SlotSpec) ∈ rowSpecs := of_decide_eq_true (by with_unfolding_all rfl)
  exact ⟨hmem, by decide, by decide, by decide, by decide, by decide,
    (C3_vitality_step noInput c3State).1 ⟨0, 0, 0⟩ hmem (by decide) (by decide) (by decide),
    (C3_vitality_step noInput c3State).2 (by decide) (by decide)⟩

/-- Counterexample to Claim C3 as stated: in rehitState alien 0 has
vitality 3, strictly inside (0, MAX), yet after one tick its vitality is
5 — strictly LARGER — because the player bullet re-hits the drawn dying
alien, and neither a reset nor a life-loss transition happened. -/
theorem C3_vitality_counterexample :
    rehitState.enemyAlive.getD 0 0 = 3 ∧
    (gameLoop noInput rehitState).enemyAlive.getD 0 0 = 5 ∧
    rehitState.enemyAlive.getD 0 0 < (gameLoop noInput rehitState).enemyAlive.getD 0 0 ∧
    (gameLoop noInput rehitState).enemyAlive.getD 0 0 ≠ ALIVE ∧
    gameLoop noInput rehitState ≠ gameReset :=
  of_decide_eq_true (by with_unfolding_all rfl)


/-- Claim C4 (amended): the formation velocity is multiplied by
-ALIEN_INCREASE_SPEED_BY and the formation descends by ALIEN_INCREASE_Y_BY
once PER touching drawn alien (the edge branch of every alien iteration
fires), not once per sweep; in a tick where exactly one drawn alien
touches an edge the spec instance holds: 0.5 becomes -0.6 and the descent
is 4. -/
theorem C4_edge_bounce (sp : SlotSpec) (c : ℤ) (s : GameState)
    (hdrawn : (s.enemyAlive.getD sp.idx 0) % 2 = 1) (hc0 : c ≠ 0)
    (hedge : ratTrunc (s.enemyX + sp.xOff) ≤ 0 ∨
      (SCREEN_WIDTH : ℤ) ≤ ratTrunc (s.enemyX + sp.xOff) + (ALIEN_WIDTH : ℤ))
    (hground : ¬((SCREEN_HEIGHT : ℤ) ≤ ratTrunc (s.enemyY + sp.yOff) + (ALIEN_HEIGHT : ℤ))) :
    (∃ A r bX bY, alienStep sp (c, s) = Except.ok (c - 1,
      { s with enemyDX := s.enemyDX * (-ALIEN_INCREASE_SPEED_BY),
               enemyY := s.enemyY + (ALIEN_INCREASE_Y_BY : ℚ),
               enemyAlive := A, enemyRemaining := r, bulletX := bX, bulletY := bY })) ∧
    (gameLoop noInput (oneTouchState (mkRat 1 2))).enemyDX = -(mkRat 3 5) ∧
    (gameLoop noInput (oneTouchState (mkRat 1 2))).enemyY = (ALIEN_INCREASE_Y_BY : ℚ) := by
  refine ⟨?_, by with_unfolding_all rfl, by with_unfolding_all rfl⟩
  unfold alienStep
  dsimp only
  rw [if_pos hdrawn, if_neg hc0, if_pos hedge, if_neg hground]
  obtain ⟨A1, B1, C1, h1⟩ := collideBullets_frame sp.idx
    (ratTrunc (s.enemyX + sp.xOff)) (ratTrunc (s.enemyY + sp.yOff))
    { s with enemyDX := s.enemyDX * (-ALIEN_INCREASE_SPEED_BY),
             enemyY := s.enemyY + (ALIEN_INCREASE_Y_BY : ℚ) }
  obtain ⟨A2, r2, h2⟩ := alienLife_frame sp.idx
    (collideBullets sp.idx (ratTrunc (s.enemyX + sp.xOff)) (ratTrunc (s.enemyY + sp.yOff))
      { s with enemyDX := s.enemyDX * (-ALIEN_INCREASE_SPEED_BY),
               enemyY := s.enemyY + (ALIEN_INCREASE_Y_BY : ℚ) })
  refine ⟨A2, r2, B1, C1, ?_⟩
  rw [h2, h1]

/-- Witness for Claim C4: the drawn alien of row 1 slot 4 at x = 120
touches the right edge in oneTouchState (1/2). -/
theorem C4_edge_bounce_witness :
    ((oneTouchState (mkRat 1 2)).enemyAlive.getD (⟨4, 72, 0⟩ : SlotSpec).idx 0) % 2 = 1 ∧
    (-1 : ℤ) ≠ 0 ∧
    (ratTrunc ((oneTouchState (mkRat 1 2)).enemyX + (⟨4, 72, 0⟩ : SlotSpec).xOff) ≤ 0 ∨
      (SCREEN_WIDTH : ℤ) ≤ ratTrunc ((oneTouchState (mkRat 1 2)).enemyX +
        (⟨4, 72, 0⟩ : SlotSpec).xOff) + (ALIEN_WIDTH : ℤ)) ∧
    ¬((SCREEN_HEIGHT : ℤ) ≤ ratTrunc ((oneTouchState (mkRat 1 2)).enemyY +
        (⟨4, 72, 0⟩ : SlotSpec).yOff) + (ALIEN_HEIGHT : ℤ)) ∧
    (∃ A r bX bY, alienStep ⟨4, 72, 0⟩ (-1, oneTouchState (mkRat 1 2)) = Except.ok (-1 - 1,
      { oneTouchState (mkRat 1 2) with
          enemyDX := (oneTouchState (mkRat 1 2)).enemyDX * (-ALIEN_INCREASE_SPEED_BY),
          enemyY := (oneTouchState (mkRat 1 2)).enemyY + (ALIEN_INCREASE_Y_BY : ℚ),
          enemyAlive := A, enemyRemaining := r, bulletX := bX, bulletY := bY })) :=
  ⟨of_decide_eq_true (by with_unfolding_all rfl), by decide,
   of_decide_eq_true (by with_unfolding_all rfl), of_decide_eq_true (by with_unfolding_all rfl),
   (C4_edge_bounce ⟨4, 72, 0⟩ (-1) (oneTouchState (mkRat 1 2))
     (of_decide_eq_true (by with_unfolding_all rfl)) (by decide)
     (of_decide_eq_true (by with_unfolding_all rfl))
     (of_decide_eq_true (by with_unfolding_all rfl))).1⟩

/-- Counterexample to Claim C4 as stated: in doubleTouchState two drawn
aliens touch the right edge in the same sweep, so one tick scales the
velocity twice (1/2 becomes 18/25, not -3/5) and descends twice (enemyY
becomes 8, not 4). -/
theorem C4_edge_bounce_counterexample :
    doubleTouchState.enemyDX = mkRat 1 2 ∧
    (gameLoop noInput doubleTouchState).enemyDX = mkRat 18 25 ∧
    (gameLoop noInput doubleTouchState).enemyDX ≠
      doubleTouchState.enemyDX * (-ALIEN_INCREASE_SPEED_BY) ∧
    (gameLoop noInput doubleTouchState).enemyY = 8 ∧
    (gameLoop noInput doubleTouchState).enemyY ≠ (ALIEN_INCREASE_Y_BY : ℚ) :=
  of_decide_eq_true (by with_unfolding_all rfl)

/-- Claim C7: each shot writes its coordinates into the slot at the
current write cursor and advances the cursor modulo the capacity,
regardless of that slot's contents, for both pools; after 20 shots from
distinct positions the cursor is back at 0 and slot 0 still holds the
first request, and the 21st shot overwrites slot 0 with the last
request. -/
theorem C7_ring_buffer (s : GameState) (x y : ℤ) :
    ((fireBullet s).bulletX = s.bulletX.set s.currBulletId ((s.shipX + SHIP_WIDTH / 2) % 256) ∧
     (fireBullet s).bulletY = s.bulletY.set s.currBulletId s.shipY ∧
     (fireBullet s).currBulletId = (s.currBulletId + 1) % MAX_PLAYER_BULLETS) ∧
    ((fireFromAlien x y s).enemyBulletX =
        s.enemyBulletX.set s.currEnemyBulletId (toByte (x + (ALIEN_WIDTH : ℤ) / 2)) ∧
     (fireFromAlien x y s).enemyBulletY =
        s.enemyBulletY.set s.currEnemyBulletId (toByte (y + (ALIEN_HEIGHT : ℤ))) ∧
     (fireFromAlien x y s).currEnemyBulletId = (s.currEnemyBulletId + 1) % MAX_ENEMY_BULLETS) ∧
    (([((0 : ℕ), (0 : ℕ)), (2, 1), (4, 2), (6, 3), (8, 4), (10, 5), (12, 6), (14, 7), (16, 8),
        (18, 9), (20, 10), (22, 11), (24, 12), (26, 13), (28, 14), (30, 15), (32, 16), (34, 17),
        (36, 18), (38, 19)].foldl fireAt gameReset).currBulletId = 0 ∧
     ([((0 : ℕ), (0 : ℕ)), (2, 1), (4, 2), (6, 3), (8, 4), (10, 5), (12, 6), (14, 7), (16, 8),
        (18, 9), (20, 10), (22, 11), (24, 12), (26, 13), (28, 14), (30, 15), (32, 16), (34, 17),
        (36, 18), (38, 19)].foldl fireAt gameReset).bulletX.getD 0 0 =
       (0 + SHIP_WIDTH / 2) % 256 ∧
     ([((0 : ℕ), (0 : ℕ)), (2, 1), (4, 2), (6, 3), (8, 4), (10, 5), (12, 6), (14, 7), (16, 8),
        (18, 9), (20, 10), (22, 11), (24, 12), (26, 13), (28, 14), (30, 15), (32, 16), (34, 17),
        (36, 18), (38, 19), (40, 20)].foldl fireAt gameReset).bulletX.getD 0 0 =
       (40 + SHIP_WIDTH / 2) % 256 ∧
     ([((0 : ℕ), (0 : ℕ)), (2, 1), (4, 2), (6, 3), (8, 4), (10, 5), (12, 6), (14, 7), (16, 8),
        (18, 9), (20, 10), (22, 11), (24, 12), (26, 13), (28, 14), (30, 15), (32, 16), (34, 17),
        (36, 18), (38, 19), (40, 20)].foldl fireAt gameReset).bulletY.getD 0 0 = 20) := by
  refine ⟨⟨rfl, rfl, rfl⟩, ⟨rfl, rfl, rfl⟩, ?_, ?_, ?_, ?_⟩ <;> with_unfolding_all rfl

/-- Witness for Claim C7 at the reset state. -/
theorem C7_ring_buffer_witness :
    (fireBullet gameReset).bulletX =
      gameReset.bulletX.set gameReset.currBulletId ((gameReset.shipX + SHIP_WIDTH / 2) % 256) ∧
    (fireBullet gameReset).currBulletId = (gameReset.currBulletId + 1) % MAX_PLAYER_BULLETS :=
  ⟨(C7_ring_buffer gameReset 10 0).1.1, (C7_ring_buffer gameReset 10 0).1.2.2⟩

/-- Claim C8 (amended): for each slot of either pool the advancement adds
the pool speed in uint8_t arithmetic to an active slot and leaves inactive
slots alone — but a slot is ACTIVE only when BOTH coordinates are nonzero
(so a slot like (5,0) differing from the sentinel is still skipped); a
player bullet is deactivated when the new y is 0 or strictly exceeds
SCREEN_HEIGHT, while an enemy bullet is deactivated (after the ship-hit
check) as soon as SCREEN_HEIGHT <= new y, i.e. already at y = 64. -/
theorem C8_bullet_advancement (s : GameState) (j : ℕ) (hj : j < MAX_PLAYER_BULLETS)
    (hpX : j < s.bulletX.length) (hpY : j < s.bulletY.length)
    (heX : j < s.enemyBulletX.length) (heY : j < s.enemyBulletY.length) :
    ((advancePlayerBullets s).bulletX.getD j 0 =
      if s.bulletX.getD j 0 ≠ 0 ∧ s.bulletY.getD j 0 ≠ 0 then
        if (s.bulletY.getD j 0 + 256 - SHIP_BULL_SPEED) % 256 = 0 ∨
            SCREEN_HEIGHT < (s.bulletY.getD j 0 + 256 - SHIP_BULL_SPEED) % 256
        then 0 else s.bulletX.getD j 0
      else s.bulletX.getD j 0) ∧
    ((advancePlayerBullets s).bulletY.getD j 0 =
      if s.bulletX.getD j 0 ≠ 0 ∧ s.bulletY.getD j 0 ≠ 0 then
        if (s.bulletY.getD j 0 + 256 - SHIP_BULL_SPEED) % 256 = 0 ∨
            SCREEN_HEIGHT < (s.bulletY.getD j 0 + 256 - SHIP_BULL_SPEED) % 256
        then 0 else (s.bulletY.getD j 0 + 256 - SHIP_BULL_SPEED) % 256
      else s.bulletY.getD j 0) ∧
    ((advanceEnemyBullets s).enemyBulletX.getD j 0 =
      if s.enemyBulletX.getD j 0 ≠ 0 ∧ s.enemyBulletY.getD j 0 ≠ 0 then
        if s.shipX ≤ s.enemyBulletX.getD j 0 ∧ s.enemyBulletX.getD j 0 ≤ s.shipX + SHIP_WIDTH ∧
            s.shipY ≤ (s.enemyBulletY.getD j 0 + ENEMY_BULLET_SPEED) % 256 ∧
            (s.enemyBulletY.getD j 0 + ENEMY_BULLET_SPEED) % 256 ≤ s.shipY + SHIP_HEIGHT
        then 0
        else if SCREEN_HEIGHT ≤ (s.enemyBulletY.getD j 0 + ENEMY_BULLET_SPEED) % 256
          then 0 else s.enemyBulletX.getD j 0
      else s.enemyBulletX.getD j 0) ∧
    ((advanceEnemyBullets s).enemyBulletY.getD j 0 =
      if s.enemyBulletX.getD j 0 ≠ 0 ∧ s.enemyBulletY.getD j 0 ≠ 0 then
        if s.shipX ≤ s.enemyBulletX.getD j 0 ∧ s.enemyBulletX.getD j 0 ≤ s.shipX + SHIP_WIDTH ∧
            s.shipY ≤ (s.enemyBulletY.getD j 0 + ENEMY_BULLET_SPEED) % 256 ∧
            (s.enemyBulletY.getD j 0 + ENEMY_BULLET_SPEED) % 256 ≤ s.shipY + SHIP_HEIGHT
        then 0
        else if SCREEN_HEIGHT ≤ (s.enemyBulletY.getD j 0 + ENEMY_BULLET_SPEED) % 256
          then 0 else (s.enemyBulletY.getD j 0 + ENEMY_BULLET_SPEED) % 256
      else s.enemyBulletY.getD j 0) := by
  obtain ⟨hp1, hp2⟩ := advPlayer_slot MAX_PLAYER_BULLETS j hj s hpX hpY
  obtain ⟨he1, he2⟩ := advEnemy_slot MAX_ENEMY_BULLETS j hj s heX heY
  exact ⟨hp1, hp2, he1, he2⟩

/-- Witness for Claim C8 at staleBulletState, slot 0: the bullet at
(10, 63) advances to y = 64 and is removed. -/
theorem C8_bullet_advancement_witness :
    0 < MAX_PLAYER_BULLETS ∧ 0 < staleBulletState.enemyBulletX.length ∧
    0 < staleBulletState.enemyBulletY.length ∧
    (advanceEnemyBullets staleBulletState).enemyBulletX.getD 0 0 = 0 ∧
    (advanceEnemyBullets staleBulletState).enemyBulletY.getD 0 0 = 0 := by
  refine ⟨by decide, by decide, by decide, ?_, ?_⟩
  · have h := (C8_bullet_advancement staleBulletState 0 (by decide) (by decide) (by decide)
      (by decide) (by decide)).2.2.1
    rw [h]
    with_unfolding_all rfl
  · have h := (C8_bullet_advancement staleBulletState 0 (by decide) (by decide) (by decide)
      (by decide) (by decide)).2.2.2
    rw [h]
    with_unfolding_all rfl

/-- Counterexample to Claim C8 as stated: the enemy bullet at (10, 63)
advances to y = 64, which does NOT exceed the screen height, yet the slot
is reset to the sentinel; and the slot (5, 0), which is not equal to the
sentinel (0,0), is nevertheless treated as inactive and left unchanged
instead of being advanced to y = 1. -/
theorem C8_bullet_advancement_counterexample :
    staleBulletState.enemyBulletY.getD 0 0 + ENEMY_BULLET_SPEED = SCREEN_HEIGHT ∧
    ¬ SCREEN_HEIGHT < staleBulletState.enemyBulletY.getD 0 0 + ENEMY_BULLET_SPEED ∧
    (advanceEnemyBullets staleBulletState).enemyBulletX.getD 0 0 = 0 ∧
    (advanceEnemyBullets staleBulletState).enemyBulletY.getD 0 0 = 0 ∧
    ¬ (staleBulletState.enemyBulletX.getD 1 0 = 0 ∧
       staleBulletState.enemyBulletY.getD 1 0 = 0) ∧
    (advanceEnemyBullets staleBulletState).enemyBulletX.getD 1 0 = 5 ∧
    (advanceEnemyBullets staleBulletState).enemyBulletY.getD 1 0 = 0 :=
  of_decide_eq_true (by with_unfolding_all rfl)


/-- Claim C6: on a 1024-byte framebuffer, lcdDrawPixel silently ignores
out-of-range coordinates; in range it flips y (y2 = 63 - y), ORs bit
(y2 mod 8) into the byte at index (y2 div 8) * 128 + x, so exactly that
one bit becomes set, no bit is ever cleared, and every other byte is
unchanged. -/
theorem C6_draw_pixel (x y : ℕ) (fb : List ℕ) (hlen : fb.length = 1024) :
    (127 < x ∨ 63 < y → lcdDrawPixel x y fb = fb) ∧
    (x ≤ 127 → y ≤ 63 →
      (lcdDrawPixel x y fb).length = 1024 ∧
      (∀ b : ℕ, ((lcdDrawPixel x y fb).getD (((63 - y) / 8) * 128 + x) 0).testBit b = true ↔
        ((fb.getD (((63 - y) / 8) * 128 + x) 0).testBit b = true ∨ b = (63 - y) % 8)) ∧
      (∀ i : ℕ, i ≠ ((63 - y) / 8) * 128 + x →
        (lcdDrawPixel x y fb).getD i 0 = fb.getD i 0)) := by
  constructor
  · intro h
    unfold lcdDrawPixel
    rw [if_pos h]
  · intro hx hy
    have hor : ¬(127 < x ∨ 63 < y) := by omega
    have hidx : ((63 - y) / 8) * 128 + x < fb.length := by
      rw [hlen]
      omega
    refine ⟨?_, ?_, ?_⟩
    · unfold lcdDrawPixel
      rw [if_neg hor]
      show (fb.set (((63 - y) / 8) * 128 + x)
        ((fb.getD (((63 - y) / 8) * 128 + x) 0) ||| (1 <<< ((63 - y) % 8)))).length = 1024
      rw [List.length_set]
      exact hlen
    · intro b
      unfold lcdDrawPixel
      rw [if_neg hor]
      show ((fb.set (((63 - y) / 8) * 128 + x)
          ((fb.getD (((63 - y) / 8) * 128 + x) 0) ||| (1 <<< ((63 - y) % 8)))).getD
          (((63 - y) / 8) * 128 + x) 0).testBit b = true ↔ _
      rw [getD_set, if_pos ⟨rfl, hidx⟩, Nat.testBit_or, Nat.shiftLeft_eq, one_mul]
      by_cases hb : b = (63 - y) % 8
      · subst hb
        simp [@Nat.testBit_two_pow_self ((63 - y) % 8)]
      · simp [Nat.testBit_two_pow_of_ne (Ne.symm hb), hb]
    · intro i hi
      unfold lcdDrawPixel
      rw [if_neg hor]
      show (fb.set (((63 - y) / 8) * 128 + x)
        ((fb.getD (((63 - y) / 8) * 128 + x) 0) ||| (1 <<< ((63 - y) % 8)))).getD i 0 = fb.getD i 0
      rw [getD_set, if_neg (fun hc => hi hc.1.symm)]

/-- Witness for Claim C6 on the all-zero framebuffer at (5, 3). -/
theorem C6_draw_pixel_witness :
    (List.replicate 1024 (0 : ℕ)).length = 1024 ∧ (5 : ℕ) ≤ 127 ∧ (3 : ℕ) ≤ 63 ∧
    ((lcdDrawPixel 5 3 (List.replicate 1024 0)).length = 1024 ∧
     (∀ b : ℕ, ((lcdDrawPixel 5 3 (List.replicate 1024 0)).getD
          (((63 - 3) / 8) * 128 + 5) 0).testBit b = true ↔
       (((List.replicate 1024 (0 : ℕ)).getD (((63 - 3) / 8) * 128 + 5) 0).testBit b = true ∨
        b = (63 - 3) % 8)) ∧
     (∀ i : ℕ, i ≠ ((63 - 3) / 8) * 128 + 5 →
       (lcdDrawPixel 5 3 (List.replicate 1024 0)).getD i 0 =
         (List.replicate 1024 (0 : ℕ)).getD i 0)) :=
  ⟨by simp, by decide, by decide,
   (C6_draw_pixel 5 3 (List.replicate 1024 0) (by simp)).2 (by decide) (by decide)⟩


set_option maxHeartbeats 4000000 in
/-- Claim C5 (amended): when the cooldown reaches 0 with aliensRemaining
positive, the drawn ordinal is rand mod aliensRemaining, and the sweep
fires from the (ordinal+1)-th DRAWN alien (odd vitality) in draw order —
alive aliens of even vitality are skipped by the counter rather than
counted — writing the bullet at that alien's position into cursor slot 0;
when the ordinal is at least the number of drawn aliens, nobody fires. -/
theorem C5_enemy_fire_selection (alive : List ℕ) (r : ℕ)
    (hlen : alive.length = 9) (hpos : 0 < countAlive alive) :
    (enemyCooldown ⟨false, false, false, r⟩ (selectState alive)).1 =
      ((r % countAlive alive : ℕ) : ℤ) ∧
    ∃ s', sweepAliens rowSpecs (enemyCooldown ⟨false, false, false, r⟩ (selectState alive)) =
        Except.ok ((((r % countAlive alive : ℕ) : ℤ)) -
          ((drawnList alive rowSpecs).length : ℤ), s') ∧
      (r % countAlive alive < (drawnList alive rowSpecs).length →
        s'.enemyBulletX = (selectState alive).enemyBulletX.set 0
          (toByte (ratTrunc ((selectState alive).enemyX +
            ((drawnList alive rowSpecs).getD (r % countAlive alive) ⟨0, 0, 0⟩).xOff) +
            (ALIEN_WIDTH : ℤ) / 2)) ∧
        s'.enemyBulletY = (selectState alive).enemyBulletY.set 0
          (toByte (ratTrunc ((selectState alive).enemyY +
            ((drawnList alive rowSpecs).getD (r % countAlive alive) ⟨0, 0, 0⟩).yOff) +
            (ALIEN_HEIGHT : ℤ))) ∧
        s'.currEnemyBulletId = 1) ∧
      ((drawnList alive rowSpecs).length ≤ r % countAlive alive →
        s'.enemyBulletX = (selectState alive).enemyBulletX ∧
        s'.enemyBulletY = (selectState alive).enemyBulletY ∧
        s'.currEnemyBulletId = (selectState alive).currEnemyBulletId) := by
  have hcd : enemyCooldown ⟨false, false, false, r⟩ (selectState alive) =
      (((r % countAlive alive : ℕ) : ℤ),
        { selectState alive with enemyBulletWait := ENEMY_WAIT_BETWEEN_FIRE }) := by
    unfold enemyCooldown
    rw [if_pos (show 0 < (selectState alive).enemyBulletWait from
          of_decide_eq_true (by with_unfolding_all rfl)),
      if_pos (show (selectState alive).enemyBulletWait - 1 = 0 ∧
          0 < (selectState alive).enemyRemaining from
        ⟨of_decide_eq_true (by with_unfolding_all rfl), hpos⟩)]
    rfl
  refine ⟨by rw [hcd], ?_⟩
  have hgeom0 : ∀ sp ∈ rowSpecs,
      ¬(ratTrunc ((10 : ℚ) + sp.xOff) ≤ 0 ∨
        (SCREEN_WIDTH : ℤ) ≤ ratTrunc ((10 : ℚ) + sp.xOff) + (ALIEN_WIDTH : ℤ)) ∧
      ¬((SCREEN_HEIGHT : ℤ) ≤ ratTrunc ((0 : ℚ) + sp.yOff) + (ALIEN_HEIGHT : ℤ)) :=
    of_decide_eq_true (by with_unfolding_all rfl)
  obtain ⟨s', hsw, hfire, hnof⟩ := sweep_select rowSpecs ((r % countAlive alive : ℕ) : ℤ)
    { selectState alive with enemyBulletWait := ENEMY_WAIT_BETWEEN_FIRE }
    hgeom0 rowSpecs_pairwise rfl
  refine ⟨s', ?_, ?_, ?_⟩
  · rw [hcd]
    exact hsw
  · intro hlt
    have h0 : (0 : ℤ) ≤ ((r % countAlive alive : ℕ) : ℤ) := by exact_mod_cast Nat.zero_le _
    have hlt2 : ((r % countAlive alive : ℕ) : ℤ) <
        ((drawnList alive rowSpecs).length : ℤ) := by exact_mod_cast hlt
    obtain ⟨f1, f2, f3⟩ := hfire h0 hlt2
    exact ⟨f1, f2, f3⟩
  · intro hge
    have hcon : ¬((0 : ℤ) ≤ ((r % countAlive alive : ℕ) : ℤ) ∧
        ((r % countAlive alive : ℕ) : ℤ) < ((drawnList alive rowSpecs).length : ℤ)) := by
      intro hab
      have hb : r % countAlive alive < (drawnList alive rowSpecs).length := by
        exact_mod_cast hab.2
      omega
    obtain ⟨f1, f2, f3⟩ := hnof hcon
    exact ⟨f1, f2, f3⟩

/-- Witness for Claim C5: with alien 0 alive-but-even, ordinal 0 selects
the drawn alien of slot 1, whose bullet x position is 32. -/
theorem C5_enemy_fire_selection_witness :
    c5WitnessAlive.length = 9 ∧ 0 < countAlive c5WitnessAlive ∧
    ∃ s', sweepAliens rowSpecs (enemyCooldown ⟨false, false, false, 0⟩
        (selectState c5WitnessAlive)) =
      Except.ok ((((0 % countAlive c5WitnessAlive : ℕ) : ℤ)) -
        ((drawnList c5WitnessAlive rowSpecs).length : ℤ), s') ∧
      s'.enemyBulletX.getD 0 0 = 32 := by
  refine ⟨by decide, by decide, ?_⟩
  obtain ⟨-, s', hsw, hfire, hnof⟩ :=
    C5_enemy_fire_selection c5WitnessAlive 0 (by decide) (by decide)
  refine ⟨s', hsw, ?_⟩
  obtain ⟨f1, -, -⟩ := hfire (of_decide_eq_true (by with_unfolding_all rfl))
  rw [f1]
  with_unfolding_all rfl

/-- Counterexample to Claim C5 as stated: in skipState alien 0 is ALIVE
(vitality 4 > 0) but not drawn, so with ordinal 0 the bullet spawns from
slot 1 (x = 32) instead of from the first currently-alive alien, slot 0
(whose bullet x would be 14); and although ordinal 8 lies in
[0, aliensRemaining), no alien fires at all that tick. -/
theorem C5_enemy_fire_counterexample :
    skipState.enemyAlive.getD 0 0 = 4 ∧ 0 < skipState.enemyAlive.getD 0 0 ∧
    (gameLoop noInput skipState).enemyBulletX.getD 0 0 = 32 ∧
    toByte (ratTrunc (skipState.enemyX + 0) + (ALIEN_WIDTH : ℤ) / 2) = 14 ∧
    (8 : ℕ) % skipState.enemyRemaining < skipState.enemyRemaining ∧
    (gameLoop ⟨false, false, false, 8⟩ skipState).enemyBulletX =
      List.replicate MAX_ENEMY_BULLETS 0 :=
  of_decide_eq_true (by with_unfolding_all rfl)

/-- Claim C10: when no ordinal is drawn the counter returned by the
cooldown step is -1, and every completed sweep leaves the enemy bullet
pool either untouched or with exactly one slot written (at the write
cursor, which then advances once) — the post-decremented counter can never
select two firers in one sweep. -/
theorem C10_single_enemy_bullet (inp : Input) (s : GameState) :
    (¬(s.enemyBulletWait = 1 ∧ 0 < s.enemyRemaining) → (enemyCooldown inp s).1 = -1) ∧
    ∀ c' s', sweepAliens rowSpecs (enemyCooldown inp s) = Except.ok (c', s') →
      ((enemyCooldown inp s).1 < 0 →
        s'.enemyBulletX = s.enemyBulletX ∧ s'.enemyBulletY = s.enemyBulletY ∧
        s'.currEnemyBulletId = s.currEnemyBulletId) ∧
      (s'.enemyBulletX = s.enemyBulletX ∧ s'.enemyBulletY = s.enemyBulletY ∧
        s'.currEnemyBulletId = s.currEnemyBulletId ∨
       ∃ v w, s'.enemyBulletX = s.enemyBulletX.set s.currEnemyBulletId v ∧
         s'.enemyBulletY = s.enemyBulletY.set s.currEnemyBulletId w ∧
         s'.currEnemyBulletId = (s.currEnemyBulletId + 1) % MAX_ENEMY_BULLETS) := by
  constructor
  · intro hnd
    unfold enemyCooldown
    by_cases h1 : 0 < s.enemyBulletWait
    · rw [if_pos h1]
      by_cases h2 : s.enemyBulletWait - 1 = 0 ∧ 0 < s.enemyRemaining
      · exact absurd ⟨by omega, h2.2⟩ hnd
      · rw [if_neg h2]
    · rw [if_neg h1]
  · intro c' s' h
    have h' : sweepAliens rowSpecs ((enemyCooldown inp s).1, (enemyCooldown inp s).2) =
        Except.ok (c', s') := h
    obtain ⟨w3, hcd⟩ := enemyCooldown_frame inp s
    have ht1 : (enemyCooldown inp s).2.enemyBulletX = s.enemyBulletX := by rw [hcd]
    have ht2 : (enemyCooldown inp s).2.enemyBulletY = s.enemyBulletY := by rw [hcd]
    have ht3 : (enemyCooldown inp s).2.currEnemyBulletId = s.currEnemyBulletId := by rw [hcd]
    constructor
    · intro hneg
      obtain ⟨⟨f1, f2, f3⟩, -⟩ := sweep_pool_neg rowSpecs (enemyCooldown inp s).1
        (enemyCooldown inp s).2 hneg c' s' h'
      exact ⟨f1.trans ht1, f2.trans ht2, f3.trans ht3⟩
    · rcases lt_or_le (enemyCooldown inp s).1 0 with hneg | hpos
      · obtain ⟨⟨f1, f2, f3⟩, -⟩ := sweep_pool_neg rowSpecs (enemyCooldown inp s).1
          (enemyCooldown inp s).2 hneg c' s' h'
        exact Or.inl ⟨f1.trans ht1, f2.trans ht2, f3.trans ht3⟩
      · rcases sweep_pool_writes rowSpecs (enemyCooldown inp s).1 (enemyCooldown inp s).2
          hpos c' s' h' with ⟨f1, f2, f3⟩ | ⟨v, w, f1, f2, f3⟩
        · exact Or.inl ⟨f1.trans ht1, f2.trans ht2, f3.trans ht3⟩
        · right
          refine ⟨v, w, ?_, ?_, ?_⟩
          · rw [f1, ht1, ht3]
          · rw [f2, ht2, ht3]
          · rw [f3, ht3]

/-- Witness for Claim C10 at the reset state: no ordinal is drawn, the
counter is -1, and the completed sweep leaves the pool untouched. -/
theorem C10_single_enemy_bullet_witness :
    ¬(gameReset.enemyBulletWait = 1 ∧ 0 < gameReset.enemyRemaining) ∧
    (enemyCooldown noInput gameReset).1 = -1 ∧
    sweepAliens rowSpecs (enemyCooldown noInput gameReset) =
      Except.ok (-10, { gameReset with enemyBulletWait := 4 }) ∧
    ({ gameReset with enemyBulletWait := 4 } : GameState).enemyBulletX =
      gameReset.enemyBulletX ∧
    ({ gameReset with enemyBulletWait := 4 } : GameState).currEnemyBulletId =
      gameReset.currEnemyBulletId := by
  have hsw : sweepAliens rowSpecs (enemyCooldown noInput gameReset) =
      Except.ok (-10, { gameReset with enemyBulletWait := 4 }) := by with_unfolding_all rfl
  refine ⟨by decide, (C10_single_enemy_bullet noInput gameReset).1 (by decide), hsw, ?_, rfl⟩
  have hc := ((C10_single_enemy_bullet noInput gameReset).2 (-10)
    { gameReset with enemyBulletWait := 4 } hsw).1 (of_decide_eq_true (by with_unfolding_all rfl))
  exact hc.1


end SpaceInvaders
